import Mathlib

/-!
LinkTreeScraper: a shallow embedding of `src/linktree/linktree.go`.

The permissive scraper of `src/linktree` is embedded as pure functions, and so
is the strict variant of `src/internal/linktree` (names under `Strict`).

* Decoded JSON (`interface{}` values produced by `encoding/json`) is the
  inductive type `JSON`; a JSON number is a finite binary64 value `F64`.
* The outside world is an `Env`: the HTTP fetcher `lt.fetch`, the document
  query `doc.Find("script#__NEXT_DATA__")` and the JSON decoder.  Every call
  of `lt.fetch` and the one `fmt.Printf` are recorded, in order, in a list of
  `Event`s returned next to the result.
* Go's `int` and `int64` are 64 bits wide; `strconv.Atoi` is modelled with its
  range check, and a failed unchecked type assertion is the outcome `panic`.
-/

set_option autoImplicit false

namespace LinkTree

/-! ## Numbers -/

/-- Width of Go's `int` on the modelled (64-bit) platform. -/
def intSize : Nat := 64

/-- Smallest value of `int`. -/
def minInt : Int := -(2 ^ 63)

/-- Largest value of `int`. -/
def maxInt : Int := 2 ^ 63 - 1

/-- A finite IEEE-754 binary64 value in sign-magnitude form: it denotes
`(-1)^neg * mant * 2^exp`.  `encoding/json` rejects literals that overflow,
so a decoded JSON number is always finite. -/
structure F64 where
  neg : Bool
  mant : Nat
  exp : Int
deriving DecidableEq

/-- Magnitude of the value rounded toward zero. -/
def F64.truncMag (v : F64) : Nat :=
  if 0 ≤ v.exp then v.mant * 2 ^ v.exp.toNat else v.mant / 2 ^ (-v.exp).toNat

/-- The value rounded toward zero, as a mathematical integer. -/
def F64.trunc (v : F64) : Int :=
  if v.neg then -(v.truncMag : Int) else (v.truncMag : Int)

/-- Go conversion `int(v)` (and `int64(v)`) of a float64: the fractional part
is discarded; for a value outside the range of `int` the Go specification
leaves the result to the implementation, and amd64 yields the smallest
`int`. -/
def F64.toInt (v : F64) : Int :=
  if minInt ≤ v.trunc ∧ v.trunc ≤ maxInt then v.trunc else minInt

/-- How many low bits of `n` do not fit in a 53-bit significand: the number of
halvings (at most `fuel`) that bring `n` below `2^53`. -/
def excessBits : Nat → Nat → Nat
  | 0, _ => 0
  | fuel + 1, n => if n < 2 ^ 53 then 0 else excessBits fuel (n / 2) + 1

/-- The binary64 value nearest to the natural number `n` with the given sign
(round to nearest, ties to even, 53 significant bits): what `encoding/json`
stores for an integer literal. -/
def F64.ofMag (neg : Bool) (n : Nat) : F64 :=
  let k := excessBits n n
  let q := n / 2 ^ k
  let r := n % 2 ^ k
  let up := decide (2 ^ k < 2 * r) || (decide (2 * r = 2 ^ k) && decide (q % 2 = 1))
  { neg := neg, mant := if up then q + 1 else q, exp := (k : Int) }

/-- The float64 that the JSON number literal of the integer `n` decodes to. -/
def F64.ofInt (n : Int) : F64 :=
  F64.ofMag (decide (n < 0)) n.natAbs

/-- The two error kinds of `strconv.NumError`: `ErrSyntax` and `ErrRange`. -/
inductive NumError where
  | malformed
  | outOfRange
deriving DecidableEq

/-- Digit loop of `strconv.ParseUint(s, 10, 64)`: a character that is not a
decimal digit is a malformed input, an accumulator that leaves `uint64` is out
of range; the first problem met from the left decides. -/
def parseUintLoop : List Char → Nat → Except NumError Nat
  | [], n => .ok n
  | c :: rest, n =>
    if c.isDigit then
      if 2 ^ 64 ≤ n * 10 + (c.toNat - 48) then .error .outOfRange
      else parseUintLoop rest (n * 10 + (c.toNat - 48))
    else .error .malformed

/-- Go `strconv.Atoi` on a 64-bit platform: an optional sign, then at least one
decimal digit, the value within the range of `int`. -/
def Atoi (s : String) : Except NumError Int :=
  let neg : Bool := decide (s.data.head? = some '-')
  let digits : List Char :=
    if s.data.head? = some '+' ∨ s.data.head? = some '-' then s.data.tail else s.data
  if digits.isEmpty then .error .malformed
  else
    match parseUintLoop digits 0 with
    | .error e => .error e
    | .ok un =>
      if neg then
        if 2 ^ 63 < un then .error .outOfRange else .ok (-(un : Int))
      else
        if 2 ^ 63 ≤ un then .error .outOfRange else .ok (un : Int)

/-- The decimal numeral of an integer: a minus sign for a negative number,
then the digits without leading zeros. -/
def decimal (n : Int) : String :=
  if n < 0 then "-" ++ Nat.repr n.natAbs else Nat.repr n.natAbs

/-! ## Decoded JSON -/

/-- A value decoded by `encoding/json` into `interface{}`: `nil`, `bool`,
`float64`, `string`, `[]interface{}` or `map[string]interface{}`. -/
inductive JSON where
  | null
  | bool (b : Bool)
  | num (v : F64)
  | str (s : String)
  | arr (xs : List JSON)
  | obj (kvs : List (String × JSON))

/-- A `map[string]interface{}`, as an association list in which the first
binding of a key is the one the map holds. -/
abbrev Obj := List (String × JSON)

/-- Go `m[k]`: the value, or the nil interface (`none`) for a missing key. -/
def index (m : Obj) (k : String) : Option JSON :=
  List.lookup k m

/-- Type assertion `v.(map[string]interface{})` in comma-ok form. -/
def asMap : Option JSON → Option Obj
  | some (.obj kvs) => some kvs
  | _ => none

/-- Type assertion `v.([]interface{})` in comma-ok form. -/
def asSlice : Option JSON → Option (List JSON)
  | some (.arr xs) => some xs
  | _ => none

/-- Type assertion `v.(string)` in comma-ok form. -/
def asString : Option JSON → Option String
  | some (.str s) => some s
  | _ => none

/-- Type assertion `v.(float64)` in comma-ok form. -/
def asFloat64 : Option JSON → Option F64
  | some (.num v) => some v
  | _ => none

/-- Type assertion `v.(bool)` in comma-ok form. -/
def asBool : Option JSON → Option Bool
  | some (.bool b) => some b
  | _ => none

/-- What `%T` prints for a value that is neither a float64 nor a string. -/
def typeName : Option JSON → String
  | some (.bool _) => "bool"
  | some (.num _) => "float64"
  | some (.str _) => "string"
  | some (.arr _) => "[]interface {}"
  | some (.obj _) => "map[string]interface {}"
  | _ => "<nil>"

/-! ## Results, requests and the environment -/

/-- The `Link` struct. -/
structure Link where
  URL : String
deriving DecidableEq

/-- The `LinktreeUser` struct. -/
structure LinktreeUser where
  Username : String
  URL : String
  AvatarImage : String
  ID : Int
  Tier : String
  IsActive : Bool
  Description : String
  CreatedAt : Int
  UpdatedAt : Int
  Links : List Link
deriving DecidableEq

/-- Error values returned by the scraper. -/
inductive Error where
  /-- An error built by `fmt.Errorf` from a constant text. -/
  | errorf (msg : String)
  /-- The error returned by `lt.fetch`. -/
  | transport (msg : String)
  /-- The error returned by `json.Unmarshal`. -/
  | unmarshal
  /-- The text "failed to convert id to int" with the `strconv.Atoi` error. -/
  | convertId (s : String) (e : NumError)
  /-- The text "unexpected type for id" with the dynamic type of the value. -/
  | unexpectedIdType (goType : String)
deriving DecidableEq

/-- The body that `uncensorLinks` marshals: `accountId`, the list under
`validationInput.acceptedSensitiveContent` (the empty list is Go's nil slice,
marshalled as `null`) and the constant `requestSource.referrer = null`. -/
structure GateBody where
  accountId : Int
  acceptedSensitiveContent : List Int
deriving DecidableEq

/-- The arguments of one call of `lt.fetch`. -/
structure Request where
  url : String
  method : String
  headers : List (String × String)
  body : Option GateBody
deriving DecidableEq

/-- An observable action of the scraper. -/
inductive Event where
  /-- A call of `lt.fetch`. -/
  | fetch (r : Request)
  /-- The line "Error getting user links" written to standard output. -/
  | printf (e : Error)
deriving DecidableEq

/-- The outside world: the HTTP client behind `lt.fetch` (a transport error
message or the response body), goquery's selection of the text of every
`script#__NEXT_DATA__` element in document order, and the value a text
denotes as JSON (`none` when it is not valid JSON, or more generally when
`json.Unmarshal` returns an error for it). -/
structure Env where
  fetch : Request → Except String String
  scripts : String → List String
  decode : String → Option JSON

/-- A Go call either returns or panics. -/
inductive Outcome (α : Type) where
  | ret (a : α)
  | panic
deriving DecidableEq

/-- The three results of `GetLinktreeUserInfo`. -/
structure Ret where
  user : Option LinktreeUser
  raw : Option Obj
  err : Option Error

/-! ## The gate-unlock call (`uncensorLinks`, lines 116-168) -/

/-- The unlock endpoint. -/
def gatesURL : String := "https://linktr.ee/api/profiles/validation/gates"

/-- The fixed headers of the unlock request. -/
def gateHeaders : List (String × String) :=
  [("origin", "https://linktr.ee"),
   ("referer", "https://linktr.ee"),
   ("user-agent", "Mozilla/5.0 (Windows NT 10.0; Win64; x64) AppleWebKit/537.36 (KHTML, like Gecko) Chrome/91.0.4472.77 Safari/537.36")]

/-- The request that `uncensorLinks` sends for an account id and id list. -/
def gateRequest (accountID : Int) (linkIDs : List Int) : Request :=
  { url := gatesURL, method := "POST", headers := gateHeaders,
    body := some { accountId := accountID, acceptedSensitiveContent := linkIDs } }

/-- Go `json.Unmarshal(text, &m)` for `m` a nil `map[string]interface{}`: a
JSON object fills the map, `null` leaves it nil (it reads as empty), and
every other text is an error. -/
def unmarshalMap (env : Env) (text : String) : Except Error Obj :=
  match env.decode text with
  | some (.obj kvs) => .ok kvs
  | some .null => .ok []
  | _ => .error .unmarshal

/-- The loop of lines 155-165 with its accumulator `links`: an element that is
not a mapping, or has no string `url`, is skipped. -/
def collectLinks : List JSON → List Link → List Link
  | [], links => links
  | l :: rest, links =>
    match asMap (some l) with
    | none => collectLinks rest links
    | some link =>
      match asString (index link "url") with
      | none => collectLinks rest links
      | some url => collectLinks rest (links ++ [{ URL := url }])

/-- Embedding of `uncensorLinks`.  `json.Marshal` cannot fail on the map
literal it is given, so that error return is omitted. -/
def uncensorLinks (env : Env) (accountID : Int) (linkIDs : List Int) :
    Except Error (List Link) × List Event :=
  let req := gateRequest accountID linkIDs
  match env.fetch req with
  | .error e => (.error (.transport e), [.fetch req])
  | .ok body =>
    match unmarshalMap env body with
    | .error e => (.error e, [.fetch req])
    | .ok resp =>
      match asSlice (index resp "links") with
      | none => (.ok [], [.fetch req])
      | some linksData => (.ok (collectLinks linksData []), [.fetch req])

/-! ## Extraction of `pageProps` (`getUserInfoJSON`, lines 73-114) -/

/-- The profile page of a username: `fmt.Sprintf("https://linktr.ee/%s", username)`. -/
def profileURL (username : String) : String :=
  "https://linktr.ee/" ++ username

/-- The callback of lines 92-107 run over the selected script elements, with
the captured variable `userData` as accumulator. -/
def scanScripts (env : Env) : List String → Option Obj → Option Obj
  | [], userData => userData
  | jsonData :: rest, userData =>
    match unmarshalMap env jsonData with
    | .error _ => scanScripts env rest userData
    | .ok data =>
      match asMap (index data "props") with
      | none => scanScripts env rest userData
      | some props =>
        match asMap (index props "pageProps") with
        | none => scanScripts env rest userData
        | some pageProps => scanScripts env rest (some pageProps)

/-- Lines 86-113: query the document and extract `pageProps`.  Parsing HTML
from an in-memory reader does not fail, so that error return is omitted. -/
def extractPageProps (env : Env) (source : String) : Except Error Obj :=
  match scanScripts env (env.scripts source) none with
  | none => .error (.errorf "failed to extract user data from HTML")
  | some userData => .ok userData

/-- The request of `getSource`. -/
def pageRequest (url : String) : Request :=
  { url := url, method := "GET", headers := [], body := none }

/-- Embedding of `getUserInfoJSON`. -/
def getUserInfoJSON (env : Env) (source url username : String) :
    Except Error Obj × List Event :=
  let url := if url = "" ∧ username ≠ "" then profileURL username else url
  if source = "" ∧ url ≠ "" then
    match env.fetch (pageRequest url) with
    | .error e => (.error (.transport e), [.fetch (pageRequest url)])
    | .ok body => (extractPageProps env body, [.fetch (pageRequest url)])
  else (extractPageProps env source, [])

/-! ## Link resolution (`getUserLinks`, lines 170-236) -/

/-- What one iteration of the loop of lines 198-227 does. -/
inductive Step where
  /-- The statement `continue` of the `COMMERCE_PAY` test. -/
  | skip
  /-- An append to `resultLinks`. -/
  | visible (l : Link)
  /-- An append to `censoredLinkIDs`. -/
  | censored (id : Int)
  /-- A `return nil, err`. -/
  | fail (e : Error)
  /-- The unchecked assertion of line 199 failed. -/
  | panic
deriving DecidableEq

/-- The type switch on `link["id"]`, lines 200-212. -/
def linkID (v : Option JSON) : Except Error Int :=
  match v with
  | some (.num f) => .ok f.toInt
  | some (.str s) =>
    match Atoi s with
    | .ok id => .ok id
    | .error e => .error (.convertId s e)
  | other => .error (.unexpectedIdType (typeName other))

/-- The body of the loop of lines 198-227 for one element `l`. -/
def linkStep (l : JSON) : Step :=
  match asMap (some l) with
  | none => .panic
  | some link =>
    match linkID (index link "id") with
    | .error e => .fail e
    | .ok id =>
      let urlExists := (asString (index link "url")).isSome
      let url := (asString (index link "url")).getD ""
      let locked := (asBool (index link "locked")).getD false
      if asString (index link "type") = some "COMMERCE_PAY" then .skip
      else if !urlExists && locked then .censored id
      else .visible { URL := url }

/-- How the loop of lines 198-227 ends. -/
inductive LoopEnd where
  | done (resultLinks : List Link) (censoredLinkIDs : List Int)
  | fail (e : Error)
  | panic
deriving DecidableEq

/-- The loop of lines 198-227 with its two accumulators. -/
def linkLoop : List JSON → List Link → List Int → LoopEnd
  | [], resultLinks, censoredLinkIDs => .done resultLinks censoredLinkIDs
  | l :: rest, resultLinks, censoredLinkIDs =>
    match linkStep l with
    | .skip => linkLoop rest resultLinks censoredLinkIDs
    | .visible k => linkLoop rest (resultLinks ++ [k]) censoredLinkIDs
    | .censored id => linkLoop rest resultLinks (censoredLinkIDs ++ [id])
    | .fail e => .fail e
    | .panic => .panic

/-- Lines 179-235 of `getUserLinks`, on the tree `data` (a nil map reads as
the empty one). -/
def resolveLinks (env : Env) (data : Obj) :
    Outcome (Except Error (List Link)) × List Event :=
  match asMap (index data "account") with
  | none => (.ret (.error (.errorf "invalid account data structure")), [])
  | some account =>
    match asFloat64 (index account "id") with
    | none => (.ret (.error (.errorf "invalid user ID")), [])
    | some userIDFloat =>
      match asSlice (index data "links") with
      | none => (.ret (.error (.errorf "invalid links data structure")), [])
      | some links =>
        match linkLoop links [] [] with
        | .panic => (.panic, [])
        | .fail e => (.ret (.error e), [])
        | .done resultLinks censoredLinkIDs =>
          match uncensorLinks env userIDFloat.toInt censoredLinkIDs with
          | (.error e, tr) => (.ret (.error e), tr)
          | (.ok uncensoredLinks, tr) => (.ret (.ok (resultLinks ++ uncensoredLinks)), tr)

/-- Embedding of `getUserLinks`; `data = none` is the nil map. -/
def getUserLinks (env : Env) (username : String) (data : Option Obj) :
    Outcome (Except Error (List Link)) × List Event :=
  if data.isNone ∧ username ≠ "" then
    match getUserInfoJSON env "" "" username with
    | (.error e, tr) => (.ret (.error e), tr)
    | (.ok fetched, tr) => ((resolveLinks env fetched).1, tr ++ (resolveLinks env fetched).2)
  else resolveLinks env (data.getD [])

/-! ## The orchestrator (`GetLinktreeUserInfo`, lines 238-322) -/

/-- The type switch on `account["id"]`, lines 267-279. -/
def accountID (v : Option JSON) : Int :=
  match v with
  | some (.num f) => f.toInt
  | some (.str s) =>
    match Atoi s with
    | .ok id => id
    | .error _ => 0
  | _ => 0

/-- Lines 281-284: the tier, or "Unknown". -/
def accountTier (v : Option JSON) : String :=
  if (asString v).getD "" = "" then "Unknown" else (asString v).getD ""

/-- Lines 291-297: a timestamp, zero unless the value is a float64. -/
def accountTime (v : Option JSON) : Int :=
  match asFloat64 v with
  | some f => f.toInt
  | none => 0

/-- Lines 258-321: the struct that is returned, given the account, the url in
force, the username and the links. -/
def makeUser (account : Obj) (url username : String) (links : List Link) : LinktreeUser :=
  { Username := username
    URL := if url = "" then profileURL username else url
    AvatarImage := (asString (index account "profilePictureUrl")).getD ""
    ID := accountID (index account "id")
    Tier := accountTier (index account "tier")
    IsActive := (asBool (index account "isActive")).getD false
    Description := (asString (index account "description")).getD ""
    CreatedAt := accountTime (index account "createdAt")
    UpdatedAt := accountTime (index account "updatedAt")
    Links := links }

/-- Lines 248-321 of `GetLinktreeUserInfo`, after `jsonInfo` was extracted. -/
def normalize (env : Env) (url : String) (jsonInfo : Obj) : Outcome Ret × List Event :=
  match asMap (index jsonInfo "account") with
  | none =>
    (.ret { user := none, raw := some jsonInfo,
            err := some (.errorf "invalid account data structure") }, [])
  | some account =>
    match asString (index account "username") with
    | none =>
      (.ret { user := none, raw := some jsonInfo, err := some (.errorf "invalid username") }, [])
    | some username =>
      match getUserLinks env "" (some jsonInfo) with
      | (.panic, tr) => (.panic, tr)
      | (.ret (.error e), tr) =>
        (.ret { user := some (makeUser account url username []), raw := some jsonInfo,
                err := none }, tr ++ [.printf e])
      | (.ret (.ok links), tr) =>
        (.ret { user := some (makeUser account url username links), raw := some jsonInfo,
                err := none }, tr)

/-- Embedding of `GetLinktreeUserInfo`. -/
def GetLinktreeUserInfo (env : Env) (url username : String) : Outcome Ret × List Event :=
  if url = "" ∧ username = "" then
    (.ret { user := none, raw := none,
            err := some (.errorf "Please pass linktree username or url") }, [])
  else
    match getUserInfoJSON env "" url username with
    | (.error e, tr) => (.ret { user := none, raw := none, err := some e }, tr)
    | (.ok jsonInfo, tr) => ((normalize env url jsonInfo).1, tr ++ (normalize env url jsonInfo).2)

/-! ## Vocabulary of the specification for link entries -/

/-- A field of a link entry: `none` when the entry is not a mapping or has no
such key. -/
def entryField (l : JSON) (k : String) : Option JSON :=
  match asMap (some l) with
  | some m => index m k
  | none => none

/-- The entry has `type == "COMMERCE_PAY"`. -/
def isCommercePay (l : JSON) : Bool :=
  decide (asString (entryField l "type") = some "COMMERCE_PAY")

/-- The string `url` of an entry, when it has one. -/
def entryURL (l : JSON) : Option String :=
  asString (entryField l "url")

/-- The entry has `locked == true`. -/
def isLocked (l : JSON) : Bool :=
  decide (asBool (entryField l "locked") = some true)

/-- A gated (censored) entry: no string `url` and `locked == true`. -/
def isGated (l : JSON) : Bool :=
  (entryURL l).isNone && isLocked l

/-- The id of an entry as an integer, when it is a JSON number or a numeric
string. -/
def entryID (l : JSON) : Option Int :=
  match linkID (entryField l "id") with
  | .ok id => some id
  | .error _ => none

/-- A well-formed link entry: a mapping whose `id` is a JSON number or a
numeric string. -/
def wellFormed (l : JSON) : Prop :=
  (asMap (some l)).isSome = true ∧ (entryID l).isSome = true

/-- The directly-visible links of the specification (section 4.3, step 1): in
order, the `url` of every entry that has one and is not `COMMERCE_PAY`. -/
def visibleLinks (links : List JSON) : List Link :=
  links.filterMap fun l => if isCommercePay l then none else (entryURL l).map Link.mk

/-- The censored ids of the specification: in order, the id of every gated
entry that is not `COMMERCE_PAY`. -/
def censoredIDs (links : List JSON) : List Int :=
  links.filterMap fun l => if isCommercePay l || !isGated l then none else entryID l

/-- One link per entry that is neither `COMMERCE_PAY` nor gated, in order: its
string `url`, or the empty URL when it has none. -/
def emittedLinks (links : List JSON) : List Link :=
  links.filterMap fun l =>
    if isCommercePay l || isGated l then none else some { URL := (entryURL l).getD "" }

/-- The links of an unlock response, in response order: the `url` of every
element of its `links` array that is a mapping with a string `url`. -/
def responseLinks (resp : Obj) : List Link :=
  match asSlice (index resp "links") with
  | none => []
  | some xs => xs.filterMap fun l => (entryURL l).map Link.mk

/-- The `links` value of a tree, when it is an array, holds only mappings. -/
def linksAreMappings (data : Obj) : Bool :=
  match asSlice (index data "links") with
  | none => true
  | some xs => xs.all fun x => (asMap (some x)).isSome

/-- Decidability of well-formedness, for evaluation on concrete entries. -/
instance instDecidableWellFormed (l : JSON) : Decidable (wellFormed l) := by
  unfold wellFormed; infer_instance

/-! ## Concrete inputs -/

/-- The float64 of a small natural number. -/
def f64 (n : Nat) : F64 := { neg := false, mant := n, exp := 0 }

/-- An environment that serves one page whose only `__NEXT_DATA__` script
decodes to a document with the given `pageProps`, and that answers the unlock
call as `gate` says: a transport error, a body that is not JSON, or a body
denoting a JSON value. -/
def stubEnv (pageProps : Obj) (gate : Except String (Option JSON)) : Env where
  fetch := fun r =>
    if r.method = "GET" then .ok "page"
    else match gate with
      | .error e => .error e
      | .ok _ => .ok "gate"
  scripts := fun _ => ["next-data"]
  decode := fun s =>
    if s = "next-data" then some (.obj [("props", .obj [("pageProps", .obj pageProps)])])
    else if s = "gate" then (match gate with
      | .ok v => v
      | .error _ => none)
    else none

/-- The link entries of the end-to-end scenario of the specification: one
visible link and one gated link. -/
def aliceLinks : List JSON :=
  [.obj [("id", .num (f64 10)), ("url", .str "https://a.example"), ("type", .str "LINK")],
   .obj [("id", .num (f64 11)), ("locked", .bool true), ("type", .str "LINK")]]

/-- The account of the end-to-end scenario. -/
def aliceAccount : Obj :=
  [("id", .num (f64 1)), ("username", .str "alice"), ("isActive", .bool true)]

/-- The `pageProps` tree of the end-to-end scenario. -/
def aliceTree : Obj :=
  [("account", .obj aliceAccount), ("links", .arr aliceLinks)]

/-- The unlock response of the end-to-end scenario. -/
def aliceGate : Obj :=
  [("links", .arr [.obj [("url", .str "https://hidden.example")]])]

/-- The environment of the end-to-end scenario. -/
def aliceEnv : Env := stubEnv aliceTree (.ok (some (.obj aliceGate)))

/-- The links of the Profile that a call returned, if it returned one. -/
def profileLinks (o : Outcome Ret) : Option (List Link) :=
  match o with
  | .ret r => r.user.map (·.Links)
  | .panic => none

/-- The error that a call returned, if it returned one. -/
def returnedError (o : Outcome Ret) : Option Error :=
  match o with
  | .ret r => r.err
  | .panic => none

/-- Four entries in the order visible A, gated, visible B, gated. -/
def orderLinks : List JSON :=
  [.obj [("id", .num (f64 1)), ("url", .str "A"), ("type", .str "LINK")],
   .obj [("id", .num (f64 2)), ("locked", .bool true), ("type", .str "LINK")],
   .obj [("id", .str "3"), ("url", .str "B"), ("locked", .bool false)],
   .obj [("id", .str "4"), ("locked", .bool true)]]

/-- A tree with the account of the end-to-end scenario and `orderLinks`. -/
def orderTree : Obj :=
  [("account", .obj aliceAccount), ("links", .arr orderLinks)]

/-- An unlock response with the links C and D. -/
def orderGate : Obj :=
  [("links", .arr [.obj [("url", .str "C")], .obj [("url", .str "D")]])]

/-- The environment serving `orderTree` and answering with `orderGate`. -/
def orderEnv : Env := stubEnv orderTree (.ok (some (.obj orderGate)))

/-- One entry with an id and a type, but neither a url nor a lock. -/
def bareLinks : List JSON :=
  [.obj [("id", .num (f64 1)), ("type", .str "LINK")]]

/-- A tree with the account of the end-to-end scenario and `bareLinks`. -/
def bareTree : Obj :=
  [("account", .obj aliceAccount), ("links", .arr bareLinks)]

/-- The environment serving `bareTree`; the unlock call answers `{}`. -/
def bareEnv : Env := stubEnv bareTree (.ok (some (.obj [])))

/-- The environment of the end-to-end scenario with the unlock endpoint
unreachable. -/
def downEnv : Env := stubEnv aliceTree (.error "connection refused")

/-- Entries of the end-to-end scenario with a `COMMERCE_PAY` entry, carrying a
url and a lock, put between them. -/
def payLinks : List JSON :=
  [.obj [("id", .num (f64 10)), ("url", .str "https://a.example"), ("type", .str "LINK")],
   .obj [("id", .num (f64 5)), ("url", .str "https://pay.example"), ("locked", .bool true),
         ("type", .str "COMMERCE_PAY")],
   .obj [("id", .num (f64 11)), ("locked", .bool true), ("type", .str "LINK")]]

/-- The tree of the end-to-end scenario with `payLinks` as links. -/
def payTree : Obj :=
  [("account", .obj aliceAccount), ("links", .arr payLinks)]

/-- The id of the Profile that a call returned, if it returned one. -/
def profileID (o : Outcome Ret) : Option Int :=
  match o with
  | .ret r => r.user.map (·.ID)
  | .panic => none

/-- The tree of the end-to-end scenario with `v` as `account.id`. -/
def idTree (v : JSON) : Obj :=
  [("account", .obj [("id", v), ("username", .str "alice")]), ("links", .arr aliceLinks)]

/-- The environment serving `idTree v` with the unlock response of the
end-to-end scenario. -/
def idEnv (v : JSON) : Env := stubEnv (idTree v) (.ok (some (.obj aliceGate)))

/-- The Profile that a call returned, if it returned one. -/
def returnedUser (o : Outcome Ret) : Option LinktreeUser :=
  match o with
  | .ret r => r.user
  | .panic => none

/-- A tree without an account. -/
def noAccountTree : Obj :=
  [("links", .arr aliceLinks)]

/-- A tree whose account has a number as username. -/
def noNameTree : Obj :=
  [("account", .obj [("id", .num (f64 1)), ("username", .num (f64 7))]),
   ("links", .arr aliceLinks)]

/-- The visible entry of the end-to-end scenario alone: no entry is gated. -/
def plainLinks : List JSON :=
  [.obj [("id", .num (f64 10)), ("url", .str "https://a.example"), ("type", .str "LINK")]]

/-- The tree of the end-to-end scenario with `plainLinks` as links. -/
def plainTree : Obj :=
  [("account", .obj aliceAccount), ("links", .arr plainLinks)]

/-- The environment serving `plainTree` with the unlock response of the
end-to-end scenario. -/
def plainEnv : Env := stubEnv plainTree (.ok (some (.obj aliceGate)))

/-- The environment serving `plainTree` with the unlock endpoint unreachable. -/
def plainDownEnv : Env := stubEnv plainTree (.error "connection refused")

/-- The tree of the end-to-end scenario with a number in place of the first
link entry. -/
def nonMapTree : Obj :=
  [("account", .obj aliceAccount), ("links", .arr [.num (f64 7)])]

/-- The tree of the end-to-end scenario with `v` as `account.tier`. -/
def tierTree (v : JSON) : Obj :=
  [("account", .obj [("id", .num (f64 1)), ("username", .str "alice"), ("tier", v)]),
   ("links", .arr aliceLinks)]

/-- An account in which every optional field has an unexpected type. -/
def oddAccount : Obj :=
  [("username", .str "alice"), ("id", .bool true), ("profilePictureUrl", .num (f64 3)),
   ("isActive", .str "yes"), ("description", .arr []), ("createdAt", .str "2020"),
   ("updatedAt", .null), ("tier", .num (f64 1))]

/-- A tree with `oddAccount` and no `links` value. -/
def oddTree : Obj :=
  [("account", .obj oddAccount)]

/-- The page that `getUserInfoJSON` requests: lines 74-76. -/
def requestedURL (url username : String) : String :=
  if url = "" ∧ username ≠ "" then profileURL username else url

/-- The mapping at `props.pageProps` of a script text, when the text is valid
JSON and holds a mapping there. -/
def pagePropsOf (env : Env) (text : String) : Option Obj :=
  match env.decode text with
  | some (.obj doc) =>
    match index doc "props" with
    | some (.obj props) =>
      match index props "pageProps" with
      | some (.obj pageProps) => some pageProps
      | _ => none
    | _ => none
  | _ => none

/-- A `COMMERCE_PAY` entry without an id, alone in the links array. -/
def payNoIdLinks : List JSON :=
  [.obj [("url", .str "https://pay.example"), ("type", .str "COMMERCE_PAY")]]

/-- The tree of the end-to-end scenario with `payNoIdLinks` as links. -/
def payNoIdTree : Obj :=
  [("account", .obj aliceAccount), ("links", .arr payNoIdLinks)]

/-- The tree of the end-to-end scenario with an empty links array. -/
def emptyLinksTree : Obj :=
  [("account", .obj aliceAccount), ("links", .arr [])]

/-- Strict variant (`src/internal/linktree`), the callback of lines 91-96 run
over the selected scripts: the error of `json.Unmarshal` is ignored and both
assertions are unchecked.  When `json.Unmarshal` returns an error the code goes
on with whatever the decoder has stored in `data` by then, given by
`salvage`: nothing for a text that is not valid JSON, but the whole object,
with nil in place of the number, when the only fault is a number literal that
overflows float64 (the decoder saves that error and continues). -/
def Strict.scanScripts (env : Env) (salvage : String → Obj) :
    List String → Option Obj → Outcome (Option Obj)
  | [], userData => .ret userData
  | jsonData :: rest, _ =>
    let data : Obj := match unmarshalMap env jsonData with
      | .ok d => d
      | .error _ => salvage jsonData
    match asMap (index data "props") with
    | none => .panic
    | some props =>
      match asMap (index props "pageProps") with
      | none => .panic
      | some pageProps => Strict.scanScripts env salvage rest (some pageProps)

/-- Strict variant, lines 85-98: the result may be the nil map (`none`), and
no error is returned for it. -/
def Strict.extractPageProps (env : Env) (salvage : String → Obj) (source : String) :
    Outcome (Except Error (Option Obj)) :=
  match Strict.scanScripts env salvage (env.scripts source) none with
  | .panic => .panic
  | .ret userData => .ret (.ok userData)

/-- Strict variant of `getUserInfoJSON` (lines 72-99). -/
def Strict.getUserInfoJSON (env : Env) (salvage : String → Obj)
    (source url username : String) :
    Outcome (Except Error (Option Obj)) × List Event :=
  let url := if url = "" ∧ username ≠ "" then profileURL username else url
  if source = "" ∧ url ≠ "" then
    match env.fetch (pageRequest url) with
    | .error e => (.ret (.error (.transport e)), [.fetch (pageRequest url)])
    | .ok body => (Strict.extractPageProps env salvage body, [.fetch (pageRequest url)])
  else (Strict.extractPageProps env salvage source, [])

/-- Strict variant, the loop of lines 135-138: both assertions are unchecked. -/
def Strict.collectLinks : List JSON → List Link → Outcome (List Link)
  | [], links => .ret links
  | l :: rest, links =>
    match asMap (some l) with
    | none => .panic
    | some link =>
      match asString (index link "url") with
      | none => .panic
      | some url => Strict.collectLinks rest (links ++ [{ URL := url }])

/-- Strict variant of `uncensorLinks` (lines 101-141). -/
def Strict.uncensorLinks (env : Env) (accountID : Int) (linkIDs : List Int) :
    Outcome (Except Error (List Link)) × List Event :=
  let req := gateRequest accountID linkIDs
  match env.fetch req with
  | .error e => (.ret (.error (.transport e)), [.fetch req])
  | .ok body =>
    match unmarshalMap env body with
    | .error e => (.ret (.error e), [.fetch req])
    | .ok resp =>
      match asSlice (index resp "links") with
      | none => (.panic, [.fetch req])
      | some linksData =>
        match Strict.collectLinks linksData [] with
        | .panic => (.panic, [.fetch req])
        | .ret links => (.ret (.ok links), [.fetch req])

/-- Strict variant, the body of the loop of lines 158-174 for one element:
the assertions on the entry, its `id`, `locked` and `type` are unchecked. -/
def Strict.linkStep (l : JSON) : Step :=
  match asMap (some l) with
  | none => .panic
  | some link =>
    match asFloat64 (index link "id") with
    | none => .panic
    | some idf =>
      let urlExists := (asString (index link "url")).isSome
      let url := (asString (index link "url")).getD ""
      match asBool (index link "locked") with
      | none => .panic
      | some locked =>
        match asString (index link "type") with
        | none => .panic
        | some linkType =>
          if linkType = "COMMERCE_PAY" then .skip
          else if !urlExists && locked then .censored idf.toInt
          else .visible { URL := url }

/-- Strict variant, the loop of lines 158-174 with its two accumulators. -/
def Strict.linkLoop : List JSON → List Link → List Int → LoopEnd
  | [], resultLinks, censoredLinkIDs => .done resultLinks censoredLinkIDs
  | l :: rest, resultLinks, censoredLinkIDs =>
    match Strict.linkStep l with
    | .skip => Strict.linkLoop rest resultLinks censoredLinkIDs
    | .visible k => Strict.linkLoop rest (resultLinks ++ [k]) censoredLinkIDs
    | .censored id => Strict.linkLoop rest resultLinks (censoredLinkIDs ++ [id])
    | .fail e => .fail e
    | .panic => .panic

/-- Strict variant, lines 152-182 of `getUserLinks` on the tree `data`. -/
def Strict.resolveLinks (env : Env) (data : Obj) :
    Outcome (Except Error (List Link)) × List Event :=
  match asMap (index data "account") with
  | none => (.panic, [])
  | some account =>
    match asFloat64 (index account "id") with
    | none => (.panic, [])
    | some userIDFloat =>
      match asSlice (index data "links") with
      | none => (.panic, [])
      | some links =>
        match Strict.linkLoop links [] [] with
        | .panic => (.panic, [])
        | .fail e => (.ret (.error e), [])
        | .done resultLinks censoredLinkIDs =>
          match Strict.uncensorLinks env userIDFloat.toInt censoredLinkIDs with
          | (.panic, tr) => (.panic, tr)
          | (.ret (.error e), tr) => (.ret (.error e), tr)
          | (.ret (.ok uncensoredLinks), tr) =>
            (.ret (.ok (resultLinks ++ uncensoredLinks)), tr)

/-- Strict variant of `getUserLinks` (lines 143-183); `data = none` is the nil
map. -/
def Strict.getUserLinks (env : Env) (salvage : String → Obj) (username : String)
    (data : Option Obj) :
    Outcome (Except Error (List Link)) × List Event :=
  if data.isNone ∧ username ≠ "" then
    match Strict.getUserInfoJSON env salvage "" "" username with
    | (.panic, tr) => (.panic, tr)
    | (.ret (.error e), tr) => (.ret (.error e), tr)
    | (.ret (.ok fetched), tr) =>
      ((Strict.resolveLinks env (fetched.getD [])).1,
        tr ++ (Strict.resolveLinks env (fetched.getD [])).2)
  else Strict.resolveLinks env (data.getD [])

/-- Strict variant, lines 195-227 of `GetLinktreeUserInfo` after `jsonInfo`
was obtained: every assertion but the one on `tier` is unchecked. -/
def Strict.normalize (env : Env) (salvage : String → Obj) (url : String)
    (jsonInfo : Option Obj) :
    Outcome (Except Error LinktreeUser) × List Event :=
  match asMap (index (jsonInfo.getD []) "account") with
  | none => (.panic, [])
  | some account =>
    match asString (index account "username"),
          asString (index account "profilePictureUrl"),
          asFloat64 (index account "id"),
          asBool (index account "isActive"),
          asFloat64 (index account "createdAt"),
          asFloat64 (index account "updatedAt"),
          asString (index account "description") with
    | some username, some avatarImage, some idf, some isActive, some ca, some ua,
      some description =>
      match Strict.getUserLinks env salvage "" jsonInfo with
      | (.panic, tr) => (.panic, tr)
      | (.ret (.error e), tr) => (.ret (.error e), tr)
      | (.ret (.ok links), tr) =>
        (.ret (.ok
          { Username := username
            URL := if url = "" then profileURL username else url
            AvatarImage := avatarImage
            ID := idf.toInt
            Tier := accountTier (index account "tier")
            IsActive := isActive
            Description := description
            CreatedAt := ca.toInt
            UpdatedAt := ua.toInt
            Links := links }), tr)
    | _, _, _, _, _, _, _ => (.panic, [])

/-- Strict variant of `GetLinktreeUserInfo` (lines 185-228). -/
def Strict.GetLinktreeUserInfo (env : Env) (salvage : String → Obj)
    (url username : String) :
    Outcome (Except Error LinktreeUser) × List Event :=
  if url = "" ∧ username = "" then
    (.ret (.error (.errorf "Please pass linktree username or url")), [])
  else
    match Strict.getUserInfoJSON env salvage "" url username with
    | (.panic, tr) => (.panic, tr)
    | (.ret (.error e), tr) => (.ret (.error e), tr)
    | (.ret (.ok jsonInfo), tr) =>
      ((Strict.normalize env salvage url jsonInfo).1,
        tr ++ (Strict.normalize env salvage url jsonInfo).2)

/-- An account with every field of the type the strict variant asserts. -/
def fullAccount : Obj :=
  [("id", .num (f64 1)), ("username", .str "alice"),
   ("profilePictureUrl", .str "https://img.example/a.png"), ("tier", .str "PRO"),
   ("isActive", .bool true), ("createdAt", .num (f64 1600000000)),
   ("updatedAt", .num (f64 1700000000)), ("description", .str "hello")]

/-- Link entries with every field of the type the strict variant asserts: a
visible link, a `COMMERCE_PAY` entry and a gated link. -/
def fullLinks : List JSON :=
  [.obj [("id", .num (f64 10)), ("url", .str "https://a.example"), ("locked", .bool false),
         ("type", .str "LINK")],
   .obj [("id", .num (f64 5)), ("url", .str "https://pay.example"), ("locked", .bool false),
         ("type", .str "COMMERCE_PAY")],
   .obj [("id", .num (f64 11)), ("locked", .bool true), ("type", .str "LINK")]]

/-- A tree on which the strict variant succeeds. -/
def fullTree : Obj :=
  [("account", .obj fullAccount), ("links", .arr fullLinks)]

/-- The environment serving `fullTree` with the unlock response of the
end-to-end scenario. -/
def fullEnv : Env := stubEnv fullTree (.ok (some (.obj aliceGate)))

/-- The Profile that the strict variant returns on `fullEnv`. -/
def fullUser : LinktreeUser :=
  { Username := "alice", URL := "https://linktr.ee/alice",
    AvatarImage := "https://img.example/a.png", ID := 1, Tier := "PRO", IsActive := true,
    Description := "hello", CreatedAt := 1600000000, UpdatedAt := 1700000000,
    Links := [{ URL := "https://a.example" }, { URL := "https://hidden.example" }] }

/-- The tree `fullTree` as the decoder leaves it when the account carries one
more field, `followers`, whose number literal overflows float64: that field is
nil. -/
def overflowTree : Obj :=
  [("account", .obj (fullAccount ++ [("followers", .null)])), ("links", .arr fullLinks)]

/-- An environment whose page has one script, with the overflowing literal in
it: `json.Unmarshal` returns an error for its text.  The unlock call answers
as in the end-to-end scenario. -/
def overflowEnv : Env where
  fetch := fun r => if r.method = "GET" then .ok "page" else .ok "gate"
  scripts := fun _ => ["next-data"]
  decode := fun s => if s = "gate" then some (.obj aliceGate) else none

/-- What the decoder has stored when it returns that error: the document with
`overflowTree` at `props.pageProps`. -/
def overflowSalvage : String → Obj := fun s =>
  if s = "next-data" then [("props", .obj [("pageProps", .obj overflowTree)])] else []

/-! ## Auxiliary lemmas -/

theorem digitChar_isDigit (k : Nat) (h : k < 10) : (Nat.digitChar k).isDigit = true ∧ (Nat.digitChar k).toNat - 48 = k := by
  interval_cases k <;> decide

theorem parse_cons_digit (k : Nat) (hk : k < 10) (rest : List Char) (n : Nat)
    (h : n * 10 + k < 2 ^ 64) :
    parseUintLoop (Nat.digitChar k :: rest) n = parseUintLoop rest (n * 10 + k) := by
  have hd := digitChar_isDigit k hk
  rw [parseUintLoop, if_pos hd.1, hd.2, if_neg (by omega)]

theorem parse_toDigitsCore (fuel : Nat) : ∀ (n : Nat) (ds : List Char), n < fuel → n < 2 ^ 64 →
    parseUintLoop (Nat.toDigitsCore 10 fuel n ds) 0 = parseUintLoop ds n := by
  induction fuel with
  | zero => intro n ds h; omega
  | succ f ih =>
    intro n ds hf hn
    have hk : n % 10 < 10 := Nat.mod_lt _ (by norm_num)
    unfold Nat.toDigitsCore
    by_cases h0 : n / 10 = 0
    · simp only [h0, ↓reduceIte]
      rw [parse_cons_digit _ hk _ _ (by omega)]
      congr 1; omega
    · simp only [h0, ↓reduceIte]
      rw [ih (n / 10) _ (by omega) (by omega), parse_cons_digit _ hk _ _ (by omega)]
      congr 1; omega

theorem toDigitsCore_head (fuel : Nat) : ∀ (n : Nat) (ds : List Char), n < fuel →
    ∃ k, k < 10 ∧ ∃ rest, Nat.toDigitsCore 10 fuel n ds = Nat.digitChar k :: rest := by
  induction fuel with
  | zero => intro n ds h; omega
  | succ f ih =>
    intro n ds hf
    have hk : n % 10 < 10 := Nat.mod_lt _ (by norm_num)
    unfold Nat.toDigitsCore
    by_cases h0 : n / 10 = 0
    · simp only [h0, ↓reduceIte]
      exact ⟨_, hk, _, rfl⟩
    · simp only [h0, ↓reduceIte]
      exact ih _ _ (by omega)

theorem digitChar_not_sign (k : Nat) (h : k < 10) : Nat.digitChar k ≠ '+' ∧ Nat.digitChar k ≠ '-' := by
  interval_cases k <;> decide

theorem Atoi_repr (m : Nat) (h : m < 2 ^ 63) : Atoi (Nat.repr m) = .ok (m : Int) := by
  obtain ⟨k, hk, rest, hr⟩ := toDigitsCore_head (m + 1) m [] (by omega)
  have hp := parse_toDigitsCore (m + 1) m [] (by omega) (by omega)
  have hs := digitChar_not_sign k hk
  have hdata : (Nat.repr m).data = Nat.digitChar k :: rest := by
    simp [Nat.repr, Nat.toDigits, hr, List.asString]
  have hp2 : parseUintLoop (Nat.digitChar k :: rest) 0 = .ok m := by
    rw [← hr, hp]; rfl
  unfold Atoi
  simp only [hdata, List.head?_cons, Option.some.injEq, hs.1, hs.2, or_self, ↓reduceIte,
    decide_False, List.isEmpty_cons, hp2]
  simp; omega

theorem Atoi_neg_repr (m : Nat) (h : m ≤ 2 ^ 63) : Atoi ("-" ++ Nat.repr m) = .ok (-(m : Int)) := by
  have hp := parse_toDigitsCore (m + 1) m [] (by omega) (by omega)
  obtain ⟨k, hk, rest, hr⟩ := toDigitsCore_head (m + 1) m [] (by omega)
  have hdata : ("-" ++ Nat.repr m).data = '-' :: Nat.toDigitsCore 10 (m + 1) m [] := by
    simp [Nat.repr, Nat.toDigits, List.asString, String.data_append]
  have hp2 : parseUintLoop (Nat.toDigitsCore 10 (m + 1) m []) 0 = .ok m := by
    rw [hp]; rfl
  unfold Atoi
  rw [hr] at hp2
  simp only [hdata, List.head?_cons, List.tail_cons, hr]
  simp [hp2]; omega

theorem Atoi_decimal (n : Int) (h1 : minInt ≤ n) (h2 : n ≤ maxInt) : Atoi (decimal n) = .ok n := by
  unfold minInt at h1; unfold maxInt at h2
  unfold decimal
  split
  · rw [Atoi_neg_repr _ (by omega)]; congr 1; omega
  · rw [Atoi_repr _ (by omega)]; congr 1; omega


theorem excessBits_small (fuel n : Nat) (h : n < 2 ^ 53) : excessBits fuel n = 0 := by
  cases fuel with
  | zero => rfl
  | succ f => rw [excessBits, if_pos h]

theorem ofMag_small (neg : Bool) (n : Nat) (h : n < 2 ^ 53) :
    F64.ofMag neg n = { neg := neg, mant := n, exp := 0 } := by
  simp [F64.ofMag, excessBits_small n n h, Nat.mod_one]

theorem toInt_ofInt_lt (n : Int) (h : n.natAbs < 2 ^ 53) : (F64.ofInt n).toInt = n := by
  have h3 : (2 : Int) ^ 53 = 9007199254740992 := by norm_num
  have h4 : (2 : Nat) ^ 53 = 9007199254740992 := by norm_num
  rw [F64.ofInt, ofMag_small _ _ h]
  by_cases hn : n < 0
  · have ha := abs_of_neg hn
    simp [F64.toInt, F64.trunc, F64.truncMag, hn, minInt, maxInt]
    omega
  · have ha := abs_of_nonneg (not_lt.mp hn)
    simp [F64.toInt, F64.trunc, F64.truncMag, hn, minInt, maxInt]
    omega

theorem toInt_ofInt (n : Int) (h : n.natAbs ≤ 2 ^ 53) : (F64.ofInt n).toInt = n := by
  rcases Nat.lt_or_eq_of_le h with h1 | h1
  · exact toInt_ofInt_lt n h1
  · have h4 : (2 : Nat) ^ 53 = 9007199254740992 := by norm_num
    have : n = 9007199254740992 ∨ n = -9007199254740992 := by omega
    rcases this with rfl | rfl <;> decide

theorem collectLinks_eq (xs : List JSON) : ∀ acc : List Link,
    collectLinks xs acc = acc ++ xs.filterMap (fun l => (entryURL l).map Link.mk) := by
  induction xs with
  | nil => intro acc; simp [collectLinks]
  | cons l rest ih =>
    intro acc
    rw [collectLinks]
    cases hm : asMap (some l) with
    | none => simp [ih, entryURL, entryField, hm, asString]
    | some m =>
      cases hu : asString (index m "url") with
      | none => simp [ih, entryURL, entryField, hm, hu]
      | some u => simp [ih, entryURL, entryField, hm, hu]

theorem linkStep_wellFormed (l : JSON) (h : wellFormed l) :
    ∃ id, entryID l = some id ∧
      linkStep l = if isCommercePay l then .skip
        else if isGated l then .censored id
        else .visible { URL := (entryURL l).getD "" } := by
  obtain ⟨h1, h2⟩ := h
  obtain ⟨m, hm⟩ := Option.isSome_iff_exists.mp h1
  obtain ⟨id, hid⟩ := Option.isSome_iff_exists.mp h2
  refine ⟨id, hid, ?_⟩
  have hid2 : linkID (index m "id") = .ok id := by
    simp only [entryID, entryField, hm] at hid
    cases hl : linkID (index m "id") with
    | ok v => rw [hl] at hid; simp at hid; rw [hid]
    | error e => rw [hl] at hid; simp at hid
  simp only [linkStep, hm, hid2, isCommercePay, isGated, entryURL, entryField, isLocked]
  by_cases hc : asString (index m "type") = some "COMMERCE_PAY"
  · simp [hc]
  · simp only [hc, ↓reduceIte, decide_False]
    cases hu : asString (index m "url") <;> cases hb : asBool (index m "locked") with
    | none => simp
    | some b => cases b <;> simp

theorem linkLoop_wellFormed (xs : List JSON) : ∀ (rl : List Link) (cl : List Int),
    (∀ l ∈ xs, wellFormed l) →
    linkLoop xs rl cl = .done (rl ++ emittedLinks xs) (cl ++ censoredIDs xs) := by
  induction xs with
  | nil => intro rl cl _; simp [linkLoop, emittedLinks, censoredIDs]
  | cons l rest ih =>
    intro rl cl h
    obtain ⟨id, hid, hs⟩ := linkStep_wellFormed l (h l (List.mem_cons_self _ _))
    have hr : ∀ x ∈ rest, wellFormed x := fun x hx => h x (List.mem_cons_of_mem _ hx)
    rw [linkLoop, hs]
    by_cases hc : isCommercePay l = true
    · simp [hc, ih _ _ hr, emittedLinks, censoredIDs]
    · by_cases hg : isGated l = true
      · simp [hc, hg, ih _ _ hr, emittedLinks, censoredIDs, hid]
      · simp [hc, hg, ih _ _ hr, emittedLinks, censoredIDs]

theorem linkStep_ne_panic (l : JSON) (h : (asMap (some l)).isSome = true) : linkStep l ≠ .panic := by
  obtain ⟨m, hm⟩ := Option.isSome_iff_exists.mp h
  simp only [linkStep, hm]
  cases linkID (index m "id") with
  | error e => simp
  | ok id =>
    simp only
    split_ifs <;> simp

theorem linkLoop_ne_panic (xs : List JSON) : ∀ (rl : List Link) (cl : List Int),
    (∀ x ∈ xs, (asMap (some x)).isSome = true) → linkLoop xs rl cl ≠ .panic := by
  induction xs with
  | nil => intro rl cl _; simp [linkLoop]
  | cons l rest ih =>
    intro rl cl h
    have h1 := linkStep_ne_panic l (h l (List.mem_cons_self _ _))
    have hr : ∀ x ∈ rest, (asMap (some x)).isSome = true := fun x hx => h x (List.mem_cons_of_mem _ hx)
    rw [linkLoop]
    cases hs : linkStep l with
    | skip => exact ih _ _ hr
    | visible k => exact ih _ _ hr
    | censored id => exact ih _ _ hr
    | fail e => simp
    | panic => exact absurd hs h1


theorem getUserLinks_data (env : Env) (data : Obj) :
    getUserLinks env "" (some data) = resolveLinks env data := by
  simp [getUserLinks]

theorem GetLinktreeUserInfo_extracted (env : Env) (url username : String) (data : Obj)
    (tr : List Event) (hne : ¬(url = "" ∧ username = ""))
    (hx : getUserInfoJSON env "" url username = (.ok data, tr)) :
    GetLinktreeUserInfo env url username =
      ((normalize env url data).1, tr ++ (normalize env url data).2) := by
  rw [GetLinktreeUserInfo, if_neg hne, hx]

theorem uncensorLinks_ok (env : Env) (a : Int) (ids : List Int) (body : String) (resp : Obj)
    (hf : env.fetch (gateRequest a ids) = .ok body) (hr : unmarshalMap env body = .ok resp) :
    uncensorLinks env a ids = (.ok (responseLinks resp), [.fetch (gateRequest a ids)]) := by
  simp only [uncensorLinks, hf, hr, responseLinks]
  cases asSlice (index resp "links") with
  | none => rfl
  | some xs => simp [collectLinks_eq]

theorem uncensorLinks_transport (env : Env) (a : Int) (ids : List Int) (e : String)
    (hf : env.fetch (gateRequest a ids) = .error e) :
    uncensorLinks env a ids = (.error (.transport e), [.fetch (gateRequest a ids)]) := by
  simp only [uncensorLinks, hf]

theorem uncensorLinks_trace (env : Env) (a : Int) (ids : List Int) :
    (uncensorLinks env a ids).2 = [.fetch (gateRequest a ids)] := by
  simp only [uncensorLinks]
  cases env.fetch (gateRequest a ids) with
  | error e => rfl
  | ok body =>
    simp only
    cases unmarshalMap env body with
    | error e => rfl
    | ok resp =>
      simp only
      cases asSlice (index resp "links") <;> rfl

theorem resolveLinks_wellFormed (env : Env) (data account : Obj) (idf : F64) (links : List JSON)
    (hacct : asMap (index data "account") = some account)
    (hid : asFloat64 (index account "id") = some idf)
    (hlinks : asSlice (index data "links") = some links)
    (hwf : ∀ l ∈ links, wellFormed l) :
    resolveLinks env data =
      match uncensorLinks env idf.toInt (censoredIDs links) with
      | (.error e, tr) => (.ret (.error e), tr)
      | (.ok uncensored, tr) => (.ret (.ok (emittedLinks links ++ uncensored)), tr) := by
  simp only [resolveLinks, hacct, hid, hlinks, linkLoop_wellFormed links [] [] hwf,
    List.nil_append]

theorem resolveLinks_ne_panic (env : Env) (data : Obj) (h : linksAreMappings data = true) :
    (resolveLinks env data).1 ≠ .panic := by
  simp only [resolveLinks]
  cases asMap (index data "account") with
  | none => simp
  | some account =>
    simp only
    cases asFloat64 (index account "id") with
    | none => simp
    | some idf =>
      simp only
      cases hl : asSlice (index data "links") with
      | none => simp
      | some links =>
        simp only
        have hall : ∀ x ∈ links, (asMap (some x)).isSome = true := by
          simp only [linksAreMappings, hl, List.all_eq_true] at h
          exact h
        have hp := linkLoop_ne_panic links [] [] hall
        cases hloop : linkLoop links [] [] with
        | panic => exact absurd hloop hp
        | fail e => simp
        | done rl cl =>
          simp only
          cases uncensorLinks env idf.toInt cl with
          | mk r tr => cases r <;> simp

theorem normalize_ok (env : Env) (url : String) (data account : Obj) (name : String)
    (links : List Link) (tr : List Event)
    (hacct : asMap (index data "account") = some account)
    (hname : asString (index account "username") = some name)
    (hl : resolveLinks env data = (.ret (.ok links), tr)) :
    normalize env url data =
      (.ret { user := some (makeUser account url name links), raw := some data, err := none },
        tr) := by
  simp only [normalize, hacct, hname, getUserLinks_data, hl]

theorem normalize_error (env : Env) (url : String) (data account : Obj) (name : String)
    (e : Error) (tr : List Event)
    (hacct : asMap (index data "account") = some account)
    (hname : asString (index account "username") = some name)
    (hl : resolveLinks env data = (.ret (.error e), tr)) :
    normalize env url data =
      (.ret { user := some (makeUser account url name []), raw := some data, err := none },
        tr ++ [.printf e]) := by
  simp only [normalize, hacct, hname, getUserLinks_data, hl]

theorem normalize_ret (env : Env) (url : String) (data account : Obj) (name : String)
    (hacct : asMap (index data "account") = some account)
    (hname : asString (index account "username") = some name) (r : Ret)
    (hr : (normalize env url data).1 = .ret r) :
    ∃ links, r = { user := some (makeUser account url name links), raw := some data,
                   err := none } := by
  simp only [normalize, hacct, hname, getUserLinks_data] at hr
  rcases hres : resolveLinks env data with ⟨o, tr⟩
  rw [hres] at hr
  cases o with
  | panic => simp at hr
  | ret x =>
    cases x with
    | error e => simp at hr; exact ⟨[], hr.symm⟩
    | ok ls => simp at hr; exact ⟨ls, hr.symm⟩

theorem normalize_returns (env : Env) (url : String) (data account : Obj) (name : String)
    (hacct : asMap (index data "account") = some account)
    (hname : asString (index account "username") = some name)
    (h : linksAreMappings data = true) :
    ∃ r, (normalize env url data).1 = .ret r := by
  have hp := resolveLinks_ne_panic env data h
  simp only [normalize, hacct, hname, getUserLinks_data]
  rcases hres : resolveLinks env data with ⟨o, tr⟩
  rw [hres] at hp
  cases o with
  | panic => simp at hp
  | ret x => cases x <;> simp


theorem linkStep_commercePay (e : JSON) (hc : isCommercePay e = true) :
    linkStep e = .skip ∨ ∃ err, linkStep e = .fail err := by
  simp only [isCommercePay, entryField, decide_eq_true_eq] at hc
  cases hm : asMap (some e) with
  | none => rw [hm] at hc; simp [asString] at hc
  | some m =>
    rw [hm] at hc
    simp only at hc
    simp only [linkStep, hm]
    cases linkID (index m "id") with
    | error err => exact Or.inr ⟨err, rfl⟩
    | ok id => left; simp [hc]

theorem linkLoop_remove (pre post : List JSON) (e : JSON) (hc : isCommercePay e = true) :
    ∀ (rl : List Link) (cl : List Int),
      linkLoop (pre ++ e :: post) rl cl = linkLoop (pre ++ post) rl cl
      ∨ ∃ err, linkLoop (pre ++ e :: post) rl cl = .fail err := by
  induction pre with
  | nil =>
    intro rl cl
    rcases linkStep_commercePay e hc with h | ⟨err, h⟩
    · left; simp only [List.nil_append]; rw [linkLoop, h]
    · right; exact ⟨err, by simp only [List.nil_append]; rw [linkLoop, h]⟩
  | cons l rest ih =>
    intro rl cl
    simp only [List.cons_append]
    rw [linkLoop, linkLoop]
    cases linkStep l with
    | skip => exact ih _ _
    | visible k => exact ih _ _
    | censored id => exact ih _ _
    | fail err => left; rfl
    | panic => left; rfl

theorem GetLinktreeUserInfo_ret (env : Env) (url username : String) (data : Obj)
    (tr : List Event) (account : Obj) (name : String)
    (hne : ¬(url = "" ∧ username = ""))
    (hx : getUserInfoJSON env "" url username = (.ok data, tr))
    (hacct : asMap (index data "account") = some account)
    (hname : asString (index account "username") = some name) (r : Ret)
    (hr : (GetLinktreeUserInfo env url username).1 = .ret r) :
    ∃ links, r = { user := some (makeUser account url name links), raw := some data,
                   err := none } := by
  rw [GetLinktreeUserInfo_extracted env url username data tr hne hx] at hr
  exact normalize_ret env url data account name hacct hname r hr

theorem GetLinktreeUserInfo_returns (env : Env) (url username : String) (data : Obj)
    (tr : List Event) (account : Obj) (name : String)
    (hne : ¬(url = "" ∧ username = ""))
    (hx : getUserInfoJSON env "" url username = (.ok data, tr))
    (hacct : asMap (index data "account") = some account)
    (hname : asString (index account "username") = some name)
    (h : linksAreMappings data = true) :
    ∃ r, (GetLinktreeUserInfo env url username).1 = .ret r := by
  rw [GetLinktreeUserInfo_extracted env url username data tr hne hx]
  exact normalize_returns env url data account name hacct hname h

theorem accountID_other (v : Option JSON) (h1 : asFloat64 v = none) (h2 : asString v = none) :
    accountID v = 0 := by
  cases v with
  | none => rfl
  | some j => cases j <;> simp_all [accountID, asFloat64, asString]

theorem emittedLinks_append (a b : List JSON) :
    emittedLinks (a ++ b) = emittedLinks a ++ emittedLinks b := by
  simp [emittedLinks, List.filterMap_append]

theorem emittedLinks_url (links : List JSON) (k : Link) (hk : k ∈ emittedLinks links) :
    k.URL = "" ∨ ∃ l ∈ links, entryURL l = some k.URL := by
  simp only [emittedLinks, List.mem_filterMap] at hk
  obtain ⟨l, hl, h⟩ := hk
  split at h
  · simp at h
  · simp only [Option.some.injEq] at h
    subst h
    cases hu : entryURL l with
    | none => left; rfl
    | some u => right; exact ⟨l, hl, by simp [hu]⟩

theorem censoredIDs_nil (links : List JSON) (h : ∀ l ∈ links, isGated l = false) :
    censoredIDs links = [] := by
  simp only [censoredIDs, List.filterMap_eq_nil_iff]
  intro l hl
  simp [h l hl]

theorem accountTime_ofInt (n : Int) (h : n.natAbs ≤ 2 ^ 53) :
    accountTime (some (.num (F64.ofInt n))) = n := by
  simp only [accountTime, asFloat64]
  exact toInt_ofInt n h

theorem accountTime_other (v : Option JSON) (h : asFloat64 v = none) : accountTime v = 0 := by
  simp only [accountTime, h]

theorem getUserInfoJSON_fetch (env : Env) (url username : String)
    (hne : ¬(url = "" ∧ username = "")) :
    getUserInfoJSON env "" url username =
      match env.fetch (pageRequest (requestedURL url username)) with
      | .error e => (.error (.transport e), [.fetch (pageRequest (requestedURL url username))])
      | .ok body =>
        (extractPageProps env body, [.fetch (pageRequest (requestedURL url username))]) := by
  have hu : requestedURL url username ≠ "" := by
    unfold requestedURL
    by_cases h1 : url = ""
    · have h2 : username ≠ "" := fun h => hne ⟨h1, h⟩
      simp only [h1, h2, ne_eq, not_false_eq_true, and_self, ↓reduceIte, profileURL]
      intro h
      have := congrArg String.length h
      simp [String.length_append] at this
      exact absurd this.1 (by decide)
    · simp [h1]
  simp only [getUserInfoJSON, requestedURL] at hu ⊢
  rw [if_pos ⟨trivial, hu⟩]

theorem requestedURL_eq (url username : String) (hne : ¬(url = "" ∧ username = "")) :
    requestedURL url username = if url = "" then profileURL username else url := by
  unfold requestedURL
  by_cases h1 : url = ""
  · have h2 : username ≠ "" := fun h => hne ⟨h1, h⟩
    simp [h1, h2]
  · simp [h1]

theorem resolveLinks_trace_post (env : Env) (data : Obj) (q : Request)
    (hq : Event.fetch q ∈ (resolveLinks env data).2) : q.method = "POST" := by
  revert hq
  simp only [resolveLinks]
  cases asMap (index data "account") with
  | none => simp
  | some account =>
    simp only
    cases asFloat64 (index account "id") with
    | none => simp
    | some idf =>
      simp only
      cases asSlice (index data "links") with
      | none => simp
      | some links =>
        simp only
        cases linkLoop links [] [] with
        | panic => simp
        | fail e => simp
        | done rl cl =>
          simp only
          have ht := uncensorLinks_trace env idf.toInt cl
          rcases hu : uncensorLinks env idf.toInt cl with ⟨r, tr⟩
          rw [hu] at ht
          simp only at ht
          cases r <;>
            (simp only [ht, List.mem_singleton, Event.fetch.injEq]; intro hq; rw [hq]; rfl)

theorem getUserInfoJSON_error_ne (env : Env) (url username : String) (e : Error)
    (tr : List Event) (hne : ¬(url = "" ∧ username = ""))
    (h : getUserInfoJSON env "" url username = (.error e, tr)) :
    e ≠ .errorf "Please pass linktree username or url" := by
  rw [getUserInfoJSON_fetch env url username hne] at h
  cases hf : env.fetch (pageRequest (requestedURL url username)) with
  | error m =>
    rw [hf] at h
    simp only [Prod.mk.injEq, Except.error.injEq] at h
    rw [← h.1]; simp
  | ok body =>
    rw [hf] at h
    simp only [extractPageProps, Prod.mk.injEq] at h
    cases hs : scanScripts env (env.scripts body) none with
    | none =>
      rw [hs] at h
      simp only [Except.error.injEq] at h
      rw [← h.1]; decide
    | some ud => rw [hs] at h; simp at h

theorem normalize_error_ne (env : Env) (url : String) (data : Obj) :
    returnedError (normalize env url data).1 ≠
      some (.errorf "Please pass linktree username or url") := by
  simp only [normalize]
  cases asMap (index data "account") with
  | none => simp only [returnedError]; decide
  | some account =>
    simp only
    cases asString (index account "username") with
    | none => simp only [returnedError]; decide
    | some name =>
      simp only
      rcases getUserLinks env "" (some data) with ⟨o, tr⟩
      cases o with
      | panic => simp [returnedError]
      | ret x => cases x <;> simp [returnedError]

theorem scanScripts_cons (env : Env) (s : String) (rest : List String) (acc : Option Obj) :
    scanScripts env (s :: rest) acc =
      scanScripts env rest (match pagePropsOf env s with
        | some pp => some pp
        | none => acc) := by
  rw [scanScripts]
  simp only [unmarshalMap, pagePropsOf]
  cases hd : env.decode s with
  | none => rfl
  | some j =>
    cases j with
    | obj doc =>
      simp only
      cases hp : index doc "props" with
      | none => rfl
      | some p =>
        cases p with
        | obj props =>
          simp only [asMap]
          cases hq : index props "pageProps" with
          | none => rfl
          | some q => cases q <;> rfl
        | _ => rfl
    | null => rfl
    | _ => rfl

theorem scanScripts_none (env : Env) (xs : List String) :
    ∀ acc, (∀ t ∈ xs, pagePropsOf env t = none) → scanScripts env xs acc = acc := by
  induction xs with
  | nil => intro acc _; rfl
  | cons s rest ih =>
    intro acc h
    rw [scanScripts_cons, h s (List.mem_cons_self _ _)]
    exact ih acc (fun t ht => h t (List.mem_cons_of_mem _ ht))

theorem scanScripts_append (env : Env) (pre post : List String) :
    ∀ acc, scanScripts env (pre ++ post) acc = scanScripts env post (scanScripts env pre acc) := by
  induction pre with
  | nil => intro acc; rfl
  | cons s rest ih =>
    intro acc
    rw [List.cons_append, scanScripts_cons, scanScripts_cons, ih]

theorem scanScripts_last (env : Env) (pre post : List String) (s : String) (pp : Obj)
    (acc : Option Obj) (hs : pagePropsOf env s = some pp)
    (hpost : ∀ t ∈ post, pagePropsOf env t = none) :
    scanScripts env (pre ++ s :: post) acc = some pp := by
  rw [scanScripts_append, scanScripts_cons, hs, scanScripts_none env post _ hpost]

theorem scanScripts_eq_none (env : Env) (xs : List String)
    (h : scanScripts env xs none = none) : ∀ t ∈ xs, pagePropsOf env t = none := by
  induction xs using List.reverseRecOn with
  | nil => intro t ht; cases ht
  | append_singleton pre s ih =>
    rw [scanScripts_append, scanScripts_cons] at h
    cases hs : pagePropsOf env s with
    | some pp => rw [hs] at h; simp [scanScripts] at h
    | none =>
      rw [hs] at h
      simp only [scanScripts] at h
      intro t ht
      rcases List.mem_append.mp ht with h1 | h1
      · exact ih h t h1
      · rw [List.mem_singleton] at h1; rw [h1]; exact hs

theorem extractPageProps_error_iff (env : Env) (page : String) :
    (extractPageProps env page = .error (.errorf "failed to extract user data from HTML")
      ↔ ∀ t ∈ env.scripts page, pagePropsOf env t = none)
    ∧ (∀ e, extractPageProps env page = .error e →
        e = .errorf "failed to extract user data from HTML") := by
  simp only [extractPageProps]
  cases hs : scanScripts env (env.scripts page) none with
  | none =>
    refine ⟨⟨fun _ => scanScripts_eq_none env _ hs, fun _ => rfl⟩, ?_⟩
    intro e he
    simp only [Except.error.injEq] at he
    exact he.symm
  | some ud =>
    refine ⟨⟨fun h => by simp at h, fun h => ?_⟩, fun e he => by simp at he⟩
    rw [scanScripts_none env _ none h] at hs
    simp at hs

theorem extractPageProps_last (env : Env) (page : String) (pre post : List String)
    (s : String) (pp : Obj) (hsc : env.scripts page = pre ++ s :: post)
    (hs : pagePropsOf env s = some pp) (hpost : ∀ t ∈ post, pagePropsOf env t = none) :
    extractPageProps env page = .ok pp := by
  simp only [extractPageProps, hsc, scanScripts_last env pre post s pp none hs hpost]

theorem getUserInfoJSON_page (env : Env) (source url username page : String)
    (hp : ((source ≠ "" ∨ requestedURL url username = "") ∧ page = source)
      ∨ (source = "" ∧ requestedURL url username ≠ ""
          ∧ env.fetch (pageRequest (requestedURL url username)) = .ok page)) :
    (getUserInfoJSON env source url username).1 = extractPageProps env page := by
  simp only [getUserInfoJSON, requestedURL] at hp ⊢
  rcases hp with ⟨h1, rfl⟩ | ⟨h1, h2, h3⟩
  · rw [if_neg]
    rintro ⟨ha, hb⟩
    rcases h1 with h1 | h1
    · exact h1 ha
    · exact hb h1
  · rw [if_pos ⟨h1, h2⟩, h3]

theorem normalize_raw (env : Env) (url : String) (data : Obj) (r : Ret)
    (hr : (normalize env url data).1 = .ret r) : r.raw = some data := by
  revert hr
  simp only [normalize]
  cases asMap (index data "account") with
  | none => simp only [Outcome.ret.injEq]; intro h; rw [← h]
  | some account =>
    simp only
    cases asString (index account "username") with
    | none => simp only [Outcome.ret.injEq]; intro h; rw [← h]
    | some name =>
      simp only
      rcases getUserLinks env "" (some data) with ⟨o, tr⟩
      cases o with
      | panic => simp
      | ret x => cases x <;> (simp only [Outcome.ret.injEq]; intro h; rw [← h])

theorem linkLoop_filter (links : List JSON)
    (hid : ∀ l ∈ links, isCommercePay l = true → (entryID l).isSome = true) :
    ∀ (rl : List Link) (cl : List Int),
      linkLoop links rl cl = linkLoop (links.filter fun l => !isCommercePay l) rl cl := by
  induction links with
  | nil => intro rl cl; rfl
  | cons l rest ih =>
    intro rl cl
    have ihr := ih (fun x hx => hid x (List.mem_cons_of_mem _ hx))
    by_cases hc : isCommercePay l = true
    · have hi := hid l (List.mem_cons_self _ _) hc
      have hskip : linkStep l = .skip := by
        rcases linkStep_commercePay l hc with h | ⟨err, h⟩
        · exact h
        · exfalso
          obtain ⟨id, hid'⟩ := Option.isSome_iff_exists.mp hi
          simp only [isCommercePay, entryField, decide_eq_true_eq] at hc
          cases hm : asMap (some l) with
          | none => rw [hm] at hc; simp [asString] at hc
          | some m =>
            simp only [entryID, entryField, hm] at hid'
            simp only [linkStep, hm] at h
            cases hl : linkID (index m "id") with
            | error e => rw [hl] at hid'; simp at hid'
            | ok v =>
              rw [hl] at h
              rw [hm] at hc
              simp only at hc
              simp [hc] at h
      rw [List.filter_cons_of_neg (by simp [hc]), linkLoop, hskip]
      exact ihr rl cl
    · rw [List.filter_cons_of_pos (by simp [hc]), linkLoop, linkLoop]
      cases linkStep l with
      | skip => exact ihr _ _
      | visible k => exact ihr _ _
      | censored id => exact ihr _ _
      | fail e => rfl
      | panic => rfl

theorem censoredIDs_eq (links : List JSON) :
    censoredIDs links =
      (links.filter fun l => (entryURL l).isNone && isLocked l && !isCommercePay l).filterMap
        entryID := by
  induction links with
  | nil => rfl
  | cons l rest ih =>
    simp only [censoredIDs, List.filterMap_cons, List.filter_cons] at ih ⊢
    by_cases hc : isCommercePay l = true
    · simpa [hc] using ih
    · by_cases hg : isGated l = true
      · have hg' : ((entryURL l).isNone && isLocked l) = true := hg
        simp only [hc, hg, hg', Bool.not_true, Bool.or_self, Bool.false_eq_true, ↓reduceIte,
          Bool.not_false, Bool.and_self, List.filterMap_cons]
        cases entryID l <;> simpa using ih
      · have hg' : ¬(((entryURL l).isNone && isLocked l) = true) := hg
        simpa [hc, hg, hg'] using ih

theorem requestedURL_ne (url username : String) (hne : ¬(url = "" ∧ username = "")) :
    requestedURL url username ≠ "" := by
  unfold requestedURL
  by_cases h1 : url = ""
  · have h2 : username ≠ "" := fun h => hne ⟨h1, h⟩
    simp only [h1, h2, ne_eq, not_false_eq_true, and_self, ↓reduceIte, profileURL]
    intro h
    have := congrArg String.length h
    simp [String.length_append] at this
    exact absurd this.1 (by decide)
  · simp [h1]

theorem strict_scanScripts_last (env : Env) (salvage : String → Obj) (xs : List String) :
    xs ≠ [] → (∀ s, xs.getLast? = some s → ∃ d, unmarshalMap env s = .ok d) →
    ∀ (acc r : Option Obj), Strict.scanScripts env salvage xs acc = .ret r →
      ∀ acc', scanScripts env xs acc' = r := by
  induction xs with
  | nil => intro h; exact absurd rfl h
  | cons s rest ih =>
    intro _ hlast acc r h acc'
    rw [Strict.scanScripts] at h
    cases rest with
    | nil =>
      obtain ⟨d, hd⟩ := hlast s rfl
      rw [hd] at h
      simp only at h
      rw [scanScripts, hd]
      simp only
      cases hp : asMap (index d "props") with
      | none => simp [hp] at h
      | some props =>
        simp only [hp] at h ⊢
        cases hq : asMap (index props "pageProps") with
        | none => simp [hq] at h
        | some pp =>
          simp only [hq, Strict.scanScripts, Outcome.ret.injEq] at h
          simp only [scanScripts, h]
    | cons t rest' =>
      have hl : ∀ s', (t :: rest').getLast? = some s' → ∃ d, unmarshalMap env s' = .ok d := by
        intro s' hs'
        exact hlast s' (by rw [List.getLast?_cons_cons]; exact hs')
      have hrec : ∀ a, Strict.scanScripts env salvage (t :: rest') a = .ret r →
          ∀ acc', scanScripts env (t :: rest') acc' = r :=
        fun a ha => ih (List.cons_ne_nil _ _) hl a r ha
      rw [scanScripts_cons]
      generalize (match unmarshalMap env s with
        | .ok d => d
        | .error _ => salvage s) = data at h
      cases hp : asMap (index data "props") with
      | none => simp [hp] at h
      | some props =>
        simp only [hp] at h
        cases hq : asMap (index props "pageProps") with
        | none => simp [hq] at h
        | some pp =>
          simp only [hq] at h
          exact hrec _ h _

theorem strict_extractPageProps (env : Env) (salvage : String → Obj) (source : String)
    (d : Obj)
    (hdec : ∀ s, (env.scripts source).getLast? = some s → ∃ d, unmarshalMap env s = .ok d)
    (h : Strict.extractPageProps env salvage source = .ret (.ok (some d))) :
    extractPageProps env source = .ok d := by
  simp only [Strict.extractPageProps] at h
  cases hs : Strict.scanScripts env salvage (env.scripts source) none with
  | panic => simp [hs] at h
  | ret ud =>
    simp only [hs, Outcome.ret.injEq, Except.ok.injEq] at h
    have hne : env.scripts source ≠ [] := by
      intro he
      rw [he] at hs
      simp only [Strict.scanScripts, Outcome.ret.injEq] at hs
      rw [← hs] at h
      simp at h
    simp only [extractPageProps,
      strict_scanScripts_last env salvage _ hne hdec none ud hs none, h]

theorem strict_getUserInfoJSON (env : Env) (salvage : String → Obj) (url username : String)
    (d : Obj) (tr : List Event) (hne : ¬(url = "" ∧ username = ""))
    (hdec : ∀ page s,
      env.fetch { url := if url = "" then "https://linktr.ee/" ++ username else url,
                  method := "GET", headers := [], body := none } = .ok page →
      (env.scripts page).getLast? = some s → ∃ d, unmarshalMap env s = .ok d)
    (h : Strict.getUserInfoJSON env salvage "" url username = (.ret (.ok (some d)), tr)) :
    getUserInfoJSON env "" url username = (.ok d, tr) := by
  have hu := requestedURL_ne url username hne
  have hq := requestedURL_eq url username hne
  simp only [Strict.getUserInfoJSON] at h
  simp only [getUserInfoJSON]
  simp only [requestedURL] at hu hq
  rw [if_pos ⟨trivial, hu⟩] at h ⊢
  rw [hq] at h ⊢
  cases hf : env.fetch (pageRequest (if url = "" then profileURL username else url)) with
  | error e => simp [hf] at h
  | ok body =>
    simp only [hf, Prod.mk.injEq] at h ⊢
    exact ⟨strict_extractPageProps env salvage body d (fun s hs => hdec body s hf hs) h.1, h.2⟩

theorem strict_collectLinks (xs : List JSON) :
    ∀ (acc r : List Link), Strict.collectLinks xs acc = .ret r → collectLinks xs acc = r := by
  induction xs with
  | nil =>
    intro acc r h
    simp only [Strict.collectLinks, Outcome.ret.injEq] at h
    simp only [collectLinks, h]
  | cons l rest ih =>
    intro acc r h
    rw [Strict.collectLinks] at h
    rw [collectLinks]
    cases hm : asMap (some l) with
    | none => rw [hm] at h; simp at h
    | some link =>
      rw [hm] at h
      simp only at h ⊢
      cases hu : asString (index link "url") with
      | none => rw [hu] at h; simp at h
      | some u =>
        rw [hu] at h
        simp only at h ⊢
        exact ih _ _ h

theorem strict_uncensorLinks (env : Env) (a : Int) (ids : List Int)
    (x : Except Error (List Link)) (tr : List Event)
    (h : Strict.uncensorLinks env a ids = (.ret x, tr)) :
    uncensorLinks env a ids = (x, tr) := by
  simp only [Strict.uncensorLinks] at h
  simp only [uncensorLinks]
  cases hf : env.fetch (gateRequest a ids) with
  | error e =>
    rw [hf] at h
    simp only [Prod.mk.injEq, Outcome.ret.injEq] at h ⊢
    exact h
  | ok body =>
    rw [hf] at h
    simp only at h ⊢
    cases hu : unmarshalMap env body with
    | error e =>
      rw [hu] at h
      simp only [Prod.mk.injEq, Outcome.ret.injEq] at h ⊢
      exact h
    | ok resp =>
      rw [hu] at h
      simp only at h ⊢
      cases hl : asSlice (index resp "links") with
      | none => rw [hl] at h; simp at h
      | some linksData =>
        rw [hl] at h
        simp only at h ⊢
        cases hc : Strict.collectLinks linksData [] with
        | panic => rw [hc] at h; simp at h
        | ret links =>
          rw [hc] at h
          simp only [Prod.mk.injEq, Outcome.ret.injEq] at h ⊢
          rw [strict_collectLinks linksData [] links hc]
          exact h

theorem strict_linkStep (l : JSON) (hs : Strict.linkStep l ≠ .panic) :
    linkStep l = Strict.linkStep l := by
  simp only [Strict.linkStep] at hs ⊢
  simp only [linkStep]
  cases hm : asMap (some l) with
  | none => simp [hm] at hs
  | some link =>
    simp only [hm] at hs ⊢
    cases hi : index link "id" with
    | none => simp [hi, asFloat64] at hs
    | some j =>
      cases j with
      | num idf =>
        simp only [hi, asFloat64] at hs ⊢
        simp only [linkID]
        cases hb : asBool (index link "locked") with
        | none => simp [hb] at hs
        | some locked =>
          simp only [hb] at hs ⊢
          cases ht : asString (index link "type") with
          | none => simp [ht] at hs
          | some ty => simp
      | _ => simp [hi, asFloat64] at hs

theorem strict_linkLoop (xs : List JSON) :
    ∀ (rl : List Link) (cl : List Int), Strict.linkLoop xs rl cl ≠ .panic →
      linkLoop xs rl cl = Strict.linkLoop xs rl cl := by
  induction xs with
  | nil => intro rl cl _; rfl
  | cons l rest ih =>
    intro rl cl h
    rw [Strict.linkLoop] at h ⊢
    rw [linkLoop]
    have hs : Strict.linkStep l ≠ .panic := by
      intro hp; rw [hp] at h; exact h rfl
    rw [strict_linkStep l hs]
    cases hst : Strict.linkStep l with
    | skip => rw [hst] at h; exact ih _ _ h
    | visible k => rw [hst] at h; exact ih _ _ h
    | censored id => rw [hst] at h; exact ih _ _ h
    | fail e => rfl
    | panic => exact absurd hst hs

theorem strict_resolveLinks (env : Env) (data : Obj) (x : Except Error (List Link))
    (tr : List Event) (h : Strict.resolveLinks env data = (.ret x, tr)) :
    resolveLinks env data = (.ret x, tr) := by
  simp only [Strict.resolveLinks] at h
  simp only [resolveLinks]
  cases ha : asMap (index data "account") with
  | none => rw [ha] at h; simp at h
  | some account =>
    rw [ha] at h
    simp only at h ⊢
    cases hi : asFloat64 (index account "id") with
    | none => rw [hi] at h; simp at h
    | some idf =>
      rw [hi] at h
      simp only at h ⊢
      cases hl : asSlice (index data "links") with
      | none => rw [hl] at h; simp at h
      | some links =>
        rw [hl] at h
        simp only at h ⊢
        have hnp : Strict.linkLoop links [] [] ≠ .panic := by
          intro hp; rw [hp] at h; simp at h
        rw [strict_linkLoop links [] [] hnp]
        cases hloop : Strict.linkLoop links [] [] with
        | panic => exact absurd hloop hnp
        | fail e => rw [hloop] at h; exact h
        | done rl cl =>
          rw [hloop] at h
          simp only at h ⊢
          rcases hu : Strict.uncensorLinks env idf.toInt cl with ⟨o, tru⟩
          rw [hu] at h
          cases o with
          | panic => simp at h
          | ret y =>
            rw [strict_uncensorLinks env idf.toInt cl y tru hu]
            cases y with
            | error e => exact h
            | ok ls => exact h

theorem asFloat64_eq_some (v : Option JSON) (f : F64) (h : asFloat64 v = some f) :
    v = some (.num f) := by
  cases v with
  | none => simp [asFloat64] at h
  | some j => cases j <;> simp_all [asFloat64]

theorem strict_normalize (env : Env) (salvage : String → Obj) (url : String)
    (jsonInfo : Option Obj) (u : LinktreeUser) (tr : List Event)
    (h : Strict.normalize env salvage url jsonInfo = (.ret (.ok u), tr)) :
    ∃ d, jsonInfo = some d
      ∧ normalize env url d = (.ret { user := some u, raw := some d, err := none }, tr) := by
  cases jsonInfo with
  | none => simp [Strict.normalize, index, asMap] at h
  | some d =>
    refine ⟨d, rfl, ?_⟩
    simp only [Strict.normalize, Option.getD_some] at h
    cases ha : asMap (index d "account") with
    | none => simp [ha] at h
    | some account =>
      simp only [ha] at h
      split at h
      · rename_i name avatar idf act ca ua desc h1 h2 h3 h4 h5 h6 h7
        have hg : Strict.getUserLinks env salvage "" (some d) = Strict.resolveLinks env d := by
          simp [Strict.getUserLinks]
        rw [hg] at h
        rcases hr : Strict.resolveLinks env d with ⟨o, trl⟩
        rw [hr] at h
        cases o with
        | panic => simp at h
        | ret x =>
          cases x with
          | error e => simp at h
          | ok links =>
            simp only [Prod.mk.injEq, Outcome.ret.injEq, Except.ok.injEq] at h
            obtain ⟨hu, htr⟩ := h
            have hp := strict_resolveLinks env d (.ok links) trl hr
            rw [normalize_ok env url d account name links trl ha h1 hp, ← htr, ← hu]
            have e3 := asFloat64_eq_some _ _ h3
            simp only [makeUser, h2, h4, h7, h5, h6, e3, accountID, accountTime,
              Option.getD_some]
      · simp at h

/-! ## The claims -/

/-- C1 (amended): when the account id is a JSON number, every link entry is
well formed and the unlock call succeeds, `getUserLinks` returns, in original
order, one link per entry that is neither `COMMERCE_PAY` nor gated (its string
url, or the empty URL when it has none), followed by the links of the unlock
response in response order; `GetLinktreeUserInfo` returns the same list as
`Profile.Links`; and when every entry without a url is gated or
`COMMERCE_PAY`, the first part is exactly the directly-visible links. -/
theorem C1_links_emitted_then_unlocked (env : Env) (url username : String) (data : Obj)
    (tr : List Event) (account : Obj) (name : String) (idf : F64) (links : List JSON)
    (body : String) (resp : Obj)
    (hne : ¬(url = "" ∧ username = ""))
    (hx : getUserInfoJSON env "" url username = (.ok data, tr))
    (hacct : asMap (index data "account") = some account)
    (hname : asString (index account "username") = some name)
    (hid : asFloat64 (index account "id") = some idf)
    (hlinks : asSlice (index data "links") = some links)
    (hwf : ∀ l ∈ links, wellFormed l)
    (hfetch : env.fetch (gateRequest idf.toInt (censoredIDs links)) = .ok body)
    (hresp : unmarshalMap env body = .ok resp) :
    (getUserLinks env "" (some data)).1 = .ret (.ok (emittedLinks links ++ responseLinks resp))
    ∧ profileLinks (GetLinktreeUserInfo env url username).1
        = some (emittedLinks links ++ responseLinks resp)
    ∧ returnedError (GetLinktreeUserInfo env url username).1 = none
    ∧ ((∀ l ∈ links, isCommercePay l = true ∨ (entryURL l).isSome = true ∨ isGated l = true) →
        emittedLinks links = visibleLinks links) := by
  have hres : resolveLinks env data =
      (.ret (.ok (emittedLinks links ++ responseLinks resp)),
        [.fetch (gateRequest idf.toInt (censoredIDs links))]) := by
    rw [resolveLinks_wellFormed env data account idf links hacct hid hlinks hwf,
      uncensorLinks_ok env _ _ body resp hfetch hresp]
  refine ⟨by rw [getUserLinks_data, hres], ?_, ?_, ?_⟩
  · rw [GetLinktreeUserInfo_extracted env url username data tr hne hx,
      normalize_ok env url data account name _ _ hacct hname hres]
    rfl
  · rw [GetLinktreeUserInfo_extracted env url username data tr hne hx,
      normalize_ok env url data account name _ _ hacct hname hres]
    rfl
  · intro h
    unfold emittedLinks visibleLinks
    apply List.filterMap_congr
    intro l hl
    rcases h l hl with hc | hu | hg
    · simp [hc]
    · obtain ⟨u, hu'⟩ := Option.isSome_iff_exists.mp hu
      simp [isGated, hu']
    · have : entryURL l = none := by
        simp only [isGated, Bool.and_eq_true, Option.isNone_iff_eq_none] at hg
        exact hg.1
      simp [hg, this]

/-- Witness for C1: visible A and B with two gated ids that unlock to C and D
give exactly A, B, C, D. -/
theorem C1_links_emitted_then_unlocked_witness :
    (getUserLinks orderEnv "" (some orderTree)).1
        = .ret (.ok ([{ URL := "A" }, { URL := "B" }] ++ [{ URL := "C" }, { URL := "D" }]))
    ∧ profileLinks (GetLinktreeUserInfo orderEnv "" "alice").1
        = some ([{ URL := "A" }, { URL := "B" }] ++ [{ URL := "C" }, { URL := "D" }]) :=
  have h := C1_links_emitted_then_unlocked orderEnv "" "alice" orderTree
    [.fetch (pageRequest "https://linktr.ee/alice")] aliceAccount "alice" (f64 1) orderLinks
    "gate" orderGate (by decide) rfl rfl rfl rfl rfl (by decide) rfl rfl
  ⟨h.1, h.2.1⟩

/-- Counterexample to C1 as stated: a well-formed entry without url and lock,
with a numeric account id and a successful unlock response without links,
yields one link with the empty URL, although there is no directly-visible
link and the response holds none. -/
theorem C1_counterexample_bare_entry :
    (∀ l ∈ bareLinks, wellFormed l)
    ∧ asFloat64 (index aliceAccount "id") = some (f64 1)
    ∧ bareEnv.fetch (gateRequest (f64 1).toInt (censoredIDs bareLinks)) = .ok "gate"
    ∧ unmarshalMap bareEnv "gate" = .ok []
    ∧ visibleLinks bareLinks ++ responseLinks [] = []
    ∧ (getUserLinks bareEnv "" (some bareTree)).1 = .ret (.ok [{ URL := "" }])
    ∧ profileLinks (GetLinktreeUserInfo bareEnv "" "alice").1 = some [{ URL := "" }] :=
  ⟨by decide, rfl, rfl, rfl, rfl, rfl, rfl⟩


/-- C2 (amended): when the account and the link entries parse and the unlock
call fails with a transport error, `GetLinktreeUserInfo` returns no error and
a Profile whose `Links` is empty: the links found before the call are dropped
with it, and the error is only printed. -/
theorem C2_unlock_failure_gives_empty_links (env : Env) (url username : String) (data : Obj)
    (tr : List Event) (account : Obj) (name : String) (idf : F64) (links : List JSON)
    (e : String)
    (hne : ¬(url = "" ∧ username = ""))
    (hx : getUserInfoJSON env "" url username = (.ok data, tr))
    (hacct : asMap (index data "account") = some account)
    (hname : asString (index account "username") = some name)
    (hid : asFloat64 (index account "id") = some idf)
    (hlinks : asSlice (index data "links") = some links)
    (hwf : ∀ l ∈ links, wellFormed l)
    (hfetch : env.fetch (gateRequest idf.toInt (censoredIDs links)) = .error e) :
    GetLinktreeUserInfo env url username =
      (.ret { user := some (makeUser account url name []), raw := some data, err := none },
        tr ++ ([.fetch (gateRequest idf.toInt (censoredIDs links))] ++ [.printf (.transport e)]))
    ∧ returnedError (GetLinktreeUserInfo env url username).1 = none
    ∧ profileLinks (GetLinktreeUserInfo env url username).1 = some [] := by
  have hres : resolveLinks env data =
      (.ret (.error (.transport e)), [.fetch (gateRequest idf.toInt (censoredIDs links))]) := by
    rw [resolveLinks_wellFormed env data account idf links hacct hid hlinks hwf,
      uncensorLinks_transport env _ _ e hfetch]
  have hg := GetLinktreeUserInfo_extracted env url username data tr hne hx
  rw [normalize_error env url data account name _ _ hacct hname hres] at hg
  refine ⟨hg, ?_, ?_⟩ <;> rw [hg] <;> rfl

/-- Witness for C2: the end-to-end scenario with the unlock endpoint
unreachable. -/
theorem C2_unlock_failure_gives_empty_links_witness :
    returnedError (GetLinktreeUserInfo downEnv "" "alice").1 = none
    ∧ profileLinks (GetLinktreeUserInfo downEnv "" "alice").1 = some [] :=
  (C2_unlock_failure_gives_empty_links downEnv "" "alice" aliceTree
    [.fetch (pageRequest "https://linktr.ee/alice")] aliceAccount "alice" (f64 1) aliceLinks
    "connection refused" (by decide) rfl rfl rfl rfl rfl (by decide) rfl).2

/-- Counterexample to C2 as stated: in the end-to-end scenario with the unlock
endpoint unreachable, the account and the links parse and one link is directly
visible, yet `Profile.Links` is empty. -/
theorem C2_counterexample_visible_link_lost :
    downEnv.fetch (gateRequest (f64 1).toInt (censoredIDs aliceLinks))
        = .error "connection refused"
    ∧ (∀ l ∈ aliceLinks, wellFormed l)
    ∧ visibleLinks aliceLinks = [{ URL := "https://a.example" }]
    ∧ returnedError (GetLinktreeUserInfo downEnv "" "alice").1 = none
    ∧ profileLinks (GetLinktreeUserInfo downEnv "" "alice").1 = some []
    ∧ profileLinks (GetLinktreeUserInfo downEnv "" "alice").1 ≠ some (visibleLinks aliceLinks) :=
  ⟨rfl, by decide, by decide, by decide, by decide, by decide⟩

/-- C3: a `COMMERCE_PAY` entry, whatever its other fields are, contributes
nothing: either `getUserLinks` gives the same result and sends the same unlock
request as on the links array without that entry, or it returns an error
without any link and without any request. -/
theorem C3_commerce_pay_contributes_nothing (env : Env) (data data' : Obj)
    (pre post : List JSON) (e : JSON)
    (hacct : index data' "account" = index data "account")
    (hl : asSlice (index data "links") = some (pre ++ e :: post))
    (hl' : asSlice (index data' "links") = some (pre ++ post))
    (hc : isCommercePay e = true) :
    getUserLinks env "" (some data) = getUserLinks env "" (some data')
    ∨ ∃ err, getUserLinks env "" (some data) = (.ret (.error err), []) := by
  rw [getUserLinks_data, getUserLinks_data]
  simp only [resolveLinks, hacct, hl, hl']
  cases asMap (index data "account") with
  | none => left; rfl
  | some account =>
    simp only
    cases asFloat64 (index account "id") with
    | none => left; rfl
    | some idf =>
      simp only
      rcases linkLoop_remove pre post e hc [] [] with h | ⟨err, h⟩
      · left; rw [h]
      · right; exact ⟨err, by rw [h]⟩

/-- Witness for C3: the end-to-end scenario with a `COMMERCE_PAY` entry that
has a url and a lock. -/
theorem C3_commerce_pay_contributes_nothing_witness :
    isCommercePay (.obj [("id", .num (f64 5)), ("url", .str "https://pay.example"),
        ("locked", .bool true), ("type", .str "COMMERCE_PAY")]) = true
    ∧ (getUserLinks aliceEnv "" (some payTree) = getUserLinks aliceEnv "" (some aliceTree)
      ∨ ∃ err, getUserLinks aliceEnv "" (some payTree) = (.ret (.error err), [])) :=
  ⟨by decide, C3_commerce_pay_contributes_nothing aliceEnv payTree aliceTree
    [.obj [("id", .num (f64 10)), ("url", .str "https://a.example"), ("type", .str "LINK")]]
    [.obj [("id", .num (f64 11)), ("locked", .bool true), ("type", .str "LINK")]]
    (.obj [("id", .num (f64 5)), ("url", .str "https://pay.example"), ("locked", .bool true),
         ("type", .str "COMMERCE_PAY")]) rfl rfl rfl (by decide)⟩

/-- C4 (amended): with an account mapping and a string username, every result
that `GetLinktreeUserInfo` returns has no error and a Profile whose ID is `n`
when `account.id` is the JSON number `n` with `|n| ≤ 2^53`, is `n` when
`account.id` is the decimal string of an `n` in the range of `int`, and is `0`
when `account.id` is absent or neither a number nor a string; the call returns
whenever the links array holds only mappings. -/
theorem C4_account_id_normalized (env : Env) (url username : String) (data : Obj)
    (tr : List Event) (account : Obj) (name : String)
    (hne : ¬(url = "" ∧ username = ""))
    (hx : getUserInfoJSON env "" url username = (.ok data, tr))
    (hacct : asMap (index data "account") = some account)
    (hname : asString (index account "username") = some name) :
    (∀ r, (GetLinktreeUserInfo env url username).1 = .ret r →
      r.err = none ∧ ∃ u, r.user = some u
        ∧ (∀ n : Int, n.natAbs ≤ 2 ^ 53 →
            index account "id" = some (.num (F64.ofInt n)) → u.ID = n)
        ∧ (∀ n : Int, minInt ≤ n → n ≤ maxInt →
            index account "id" = some (.str (decimal n)) → u.ID = n)
        ∧ (asFloat64 (index account "id") = none → asString (index account "id") = none →
            u.ID = 0))
    ∧ (linksAreMappings data = true → ∃ r, (GetLinktreeUserInfo env url username).1 = .ret r) := by
  refine ⟨?_, GetLinktreeUserInfo_returns env url username data tr account name hne hx hacct hname⟩
  intro r hr
  obtain ⟨links, rfl⟩ :=
    GetLinktreeUserInfo_ret env url username data tr account name hne hx hacct hname r hr
  refine ⟨rfl, _, rfl, ?_, ?_, ?_⟩
  · intro n hn hi
    simp only [makeUser, hi, accountID]
    exact toInt_ofInt n hn
  · intro n h1 h2 hi
    simp only [makeUser, hi, accountID, Atoi_decimal n h1 h2]
  · intro h1 h2
    exact accountID_other _ h1 h2

/-- Witness for C4: the number 42 and the string "42" both give the id 42,
and a boolean gives 0. -/
theorem C4_account_id_normalized_witness :
    profileID (GetLinktreeUserInfo (idEnv (.num (F64.ofInt 42))) "" "alice").1 = some 42
    ∧ profileID (GetLinktreeUserInfo (idEnv (.str (decimal 42))) "" "alice").1 = some 42
    ∧ profileID (GetLinktreeUserInfo (idEnv (.bool true)) "" "alice").1 = some 0 := by
  have key : ∀ (v : JSON) (k : Int),
      (∀ u : LinktreeUser,
        ((∀ n : Int, n.natAbs ≤ 2 ^ 53 → some v = some (.num (F64.ofInt n)) → u.ID = n)
        ∧ (∀ n : Int, minInt ≤ n → n ≤ maxInt → some v = some (.str (decimal n)) → u.ID = n)
        ∧ (asFloat64 (some v) = none → asString (some v) = none → u.ID = 0)) → u.ID = k) →
      profileID (GetLinktreeUserInfo (idEnv v) "" "alice").1 = some k := by
    intro v k hk
    have h := C4_account_id_normalized (idEnv v) "" "alice" (idTree v)
      [.fetch (pageRequest "https://linktr.ee/alice")] [("id", v), ("username", .str "alice")]
      "alice" (by decide) rfl rfl rfl
    obtain ⟨r, hr⟩ := h.2 rfl
    obtain ⟨_, u, hu, h3⟩ := h.1 r hr
    rw [hr]
    simp only [profileID, hu, Option.map_some']
    exact congrArg some (hk u h3)
  refine ⟨key _ 42 ?_, key _ 42 ?_, key _ 0 ?_⟩
  · intro u h; exact h.1 42 (by decide) rfl
  · intro u h; exact h.2.1 42 (by decide) (by decide) rfl
  · intro u h; exact h.2.2 rfl rfl

/-- Counterexample to C4 as stated: `2^53 + 1` is representable as an `int`,
but as a JSON number it decodes to the float64 `2^53`, so the Profile gets the
id `2^53`, while its decimal string gives `2^53 + 1`. -/
theorem C4_counterexample_float_precision :
    minInt ≤ 9007199254740993 ∧ (9007199254740993 : Int) ≤ maxInt
    ∧ profileID (GetLinktreeUserInfo (idEnv (.num (F64.ofInt 9007199254740993))) "" "alice").1
        = some 9007199254740992
    ∧ profileID (GetLinktreeUserInfo (idEnv (.str (decimal 9007199254740993))) "" "alice").1
        = some 9007199254740993 :=
  ⟨by decide, by decide, by decide, by decide⟩

/-- C5: when the extracted tree has no account mapping, or the account has no
string username, `GetLinktreeUserInfo` returns an error and no Profile. -/
theorem C5_identity_required (env : Env) (url username : String) (data : Obj)
    (tr : List Event)
    (hx : getUserInfoJSON env "" url username = (.ok data, tr))
    (hid : asMap (index data "account") = none
      ∨ ∃ account, asMap (index data "account") = some account
          ∧ asString (index account "username") = none) :
    ∃ e, (GetLinktreeUserInfo env url username).1
      = .ret { user := none, raw := (if url = "" ∧ username = "" then none else some data),
               err := some e } := by
  by_cases hne : url = "" ∧ username = ""
  · simp only [GetLinktreeUserInfo, if_pos hne]
    exact ⟨_, rfl⟩
  · rw [GetLinktreeUserInfo_extracted env url username data tr hne hx, if_neg hne]
    rcases hid with h | ⟨account, h1, h2⟩
    · simp only [normalize, h]
      exact ⟨_, rfl⟩
    · simp only [normalize, h1, h2]
      exact ⟨_, rfl⟩

/-- Witness for C5: a tree without account, and a tree whose account has no
string username, give an error and no Profile. -/
theorem C5_identity_required_witness :
    ((returnedError (GetLinktreeUserInfo (stubEnv noAccountTree (.ok none)) "" "alice").1).isSome
        = true
      ∧ returnedUser (GetLinktreeUserInfo (stubEnv noAccountTree (.ok none)) "" "alice").1 = none)
    ∧ ((returnedError (GetLinktreeUserInfo (stubEnv noNameTree (.ok none)) "" "alice").1).isSome
        = true
      ∧ returnedUser (GetLinktreeUserInfo (stubEnv noNameTree (.ok none)) "" "alice").1 = none) := by
  obtain ⟨e1, h1⟩ := C5_identity_required (stubEnv noAccountTree (.ok none)) "" "alice"
    noAccountTree [.fetch (pageRequest "https://linktr.ee/alice")] rfl (Or.inl rfl)
  obtain ⟨e2, h2⟩ := C5_identity_required (stubEnv noNameTree (.ok none)) "" "alice"
    noNameTree [.fetch (pageRequest "https://linktr.ee/alice")] rfl
    (Or.inr ⟨[("id", .num (f64 1)), ("username", .num (f64 7))], rfl, rfl⟩)
  rw [h1, h2]
  exact ⟨⟨rfl, rfl⟩, ⟨rfl, rfl⟩⟩

/-- C6 (amended): with a numeric account id, well-formed entries and a
successful unlock call, `getUserLinks` returns one link per entry that is
neither `COMMERCE_PAY` nor gated, followed by the unlocked links; an entry
with no string url that is not locked and not `COMMERCE_PAY` is not dropped
but yields a link with the empty URL at its position; and the URL of every such
link is the string url of some entry or the empty string. -/
theorem C6_urlless_unlocked_entry_yields_empty_link (env : Env) (data account : Obj)
    (idf : F64) (links : List JSON) (body : String) (resp : Obj)
    (hacct : asMap (index data "account") = some account)
    (hid : asFloat64 (index account "id") = some idf)
    (hlinks : asSlice (index data "links") = some links)
    (hwf : ∀ l ∈ links, wellFormed l)
    (hfetch : env.fetch (gateRequest idf.toInt (censoredIDs links)) = .ok body)
    (hresp : unmarshalMap env body = .ok resp) :
    (getUserLinks env "" (some data)).1 = .ret (.ok (emittedLinks links ++ responseLinks resp))
    ∧ (∀ pre l post, links = pre ++ l :: post → entryURL l = none → isLocked l = false →
        isCommercePay l = false →
        emittedLinks links = emittedLinks pre ++ { URL := "" } :: emittedLinks post)
    ∧ (∀ k ∈ emittedLinks links, k.URL = "" ∨ ∃ l ∈ links, entryURL l = some k.URL) := by
  refine ⟨?_, ?_, emittedLinks_url links⟩
  · rw [getUserLinks_data, resolveLinks_wellFormed env data account idf links hacct hid hlinks hwf,
      uncensorLinks_ok env _ _ body resp hfetch hresp]
  · intro pre l post hl hu hk hc
    rw [hl, emittedLinks_append]
    congr 1
    simp [emittedLinks, List.filterMap_cons, hc, isGated, hk, hu]

/-- Witness for C6: the entry without url and lock yields the empty link. -/
theorem C6_urlless_unlocked_entry_yields_empty_link_witness :
    (getUserLinks bareEnv "" (some bareTree)).1
        = .ret (.ok (emittedLinks bareLinks ++ responseLinks []))
    ∧ emittedLinks bareLinks = emittedLinks [] ++ { URL := "" } :: emittedLinks [] := by
  have h := C6_urlless_unlocked_entry_yields_empty_link bareEnv bareTree aliceAccount (f64 1)
    bareLinks "gate" [] rfl rfl rfl (by decide) rfl rfl
  exact ⟨h.1, h.2.1 [] _ [] rfl (by decide) (by decide) (by decide)⟩

/-- Counterexample to C6 as stated: the only entry has no string url and is
not locked, yet the output holds a link, and its URL is the url of no entry. -/
theorem C6_counterexample_entry_not_dropped :
    (∀ l ∈ bareLinks, entryURL l = none ∧ isLocked l = false)
    ∧ (getUserLinks bareEnv "" (some bareTree)).1 = .ret (.ok [{ URL := "" }])
    ∧ bareLinks.filterMap entryURL = [] :=
  ⟨by decide, rfl, by decide⟩

/-- C7 (amended): the unlock call is made also when no entry is gated: with a
numeric account id and well-formed entries none of which is gated,
`getUserLinks` sends exactly one POST to the unlock endpoint, with an empty id
list; it returns the transport error when that call fails, and the links of
step 1 followed by the links of the response when it succeeds. -/
theorem C7_unlock_call_is_unconditional (env : Env) (data account : Obj)
    (idf : F64) (links : List JSON)
    (hacct : asMap (index data "account") = some account)
    (hid : asFloat64 (index account "id") = some idf)
    (hlinks : asSlice (index data "links") = some links)
    (hwf : ∀ l ∈ links, wellFormed l)
    (hng : ∀ l ∈ links, isGated l = false) :
    (getUserLinks env "" (some data)).2 = [.fetch (gateRequest idf.toInt [])]
    ∧ (∀ e, env.fetch (gateRequest idf.toInt []) = .error e →
        (getUserLinks env "" (some data)).1 = .ret (.error (.transport e)))
    ∧ (∀ body resp, env.fetch (gateRequest idf.toInt []) = .ok body →
        unmarshalMap env body = .ok resp →
        (getUserLinks env "" (some data)).1
          = .ret (.ok (emittedLinks links ++ responseLinks resp))) := by
  have hres := resolveLinks_wellFormed env data account idf links hacct hid hlinks hwf
  rw [censoredIDs_nil links hng] at hres
  rw [getUserLinks_data, hres]
  refine ⟨?_, ?_, ?_⟩
  · have ht := uncensorLinks_trace env idf.toInt []
    rcases hu : uncensorLinks env idf.toInt [] with ⟨r, tr⟩
    rw [hu] at ht
    cases r <;> exact ht
  · intro e he
    rw [uncensorLinks_transport env _ _ e he]
  · intro body resp hb hr
    rw [uncensorLinks_ok env _ _ body resp hb hr]

/-- Witness for C7: without gated entry the unlock request is sent with an
empty id list, and the links of the response are appended. -/
theorem C7_unlock_call_is_unconditional_witness :
    (getUserLinks plainEnv "" (some plainTree)).2 = [.fetch (gateRequest (f64 1).toInt [])]
    ∧ (getUserLinks plainEnv "" (some plainTree)).1
        = .ret (.ok (emittedLinks plainLinks ++ responseLinks aliceGate)) := by
  have h := C7_unlock_call_is_unconditional plainEnv plainTree aliceAccount (f64 1) plainLinks
    rfl rfl rfl (by decide) (by decide)
  exact ⟨h.1, h.2.2 "gate" aliceGate rfl rfl⟩

/-- Counterexample to C7 as stated: no entry is gated, yet the unlock request
is sent, and because it fails the visible link is not returned. -/
theorem C7_counterexample_post_without_gated_entry :
    (∀ l ∈ plainLinks, isGated l = false)
    ∧ visibleLinks plainLinks = [{ URL := "https://a.example" }]
    ∧ getUserLinks plainDownEnv "" (some plainTree)
        = (.ret (.error (.transport "connection refused")),
           [.fetch (gateRequest 1 [])]) :=
  ⟨by decide, by decide, rfl⟩

/-- C8 (failing input): a links array holding a number makes the unchecked
assertion of line 199 fail: `getUserLinks` panics instead of returning an
error, and so does `GetLinktreeUserInfo`. -/
theorem C8_non_mapping_entry_panics :
    asSlice (index nonMapTree "links") = some [.num (f64 7)]
    ∧ (getUserLinks (stubEnv nonMapTree (.ok none)) "" (some nonMapTree)).1 = .panic
    ∧ (GetLinktreeUserInfo (stubEnv nonMapTree (.ok none)) "" "alice").1 = .panic :=
  ⟨rfl, rfl, rfl⟩

/-- C9 (failing input): with `account.id` the string "42" the Profile gets the
id 42 but no links, and no unlock request is sent, because `getUserLinks`
reads `account.id` again and accepts a float64 only; with the number 42 both
links are returned and the request carries the account id 42. -/
theorem C9_string_account_id_loses_links :
    profileID (GetLinktreeUserInfo (idEnv (.str "42")) "" "alice").1 = some 42
    ∧ profileLinks (GetLinktreeUserInfo (idEnv (.str "42")) "" "alice").1 = some []
    ∧ (GetLinktreeUserInfo (idEnv (.str "42")) "" "alice").2
        = [.fetch (pageRequest "https://linktr.ee/alice"), .printf (.errorf "invalid user ID")]
    ∧ profileID (GetLinktreeUserInfo (idEnv (.num (f64 42))) "" "alice").1 = some 42
    ∧ profileLinks (GetLinktreeUserInfo (idEnv (.num (f64 42))) "" "alice").1
        = some [{ URL := "https://a.example" }, { URL := "https://hidden.example" }]
    ∧ (GetLinktreeUserInfo (idEnv (.num (f64 42))) "" "alice").2
        = [.fetch (pageRequest "https://linktr.ee/alice"), .fetch (gateRequest 42 [11])] :=
  ⟨by decide, by decide, by decide, by decide, by decide, by decide⟩

/-- C10: with an account mapping and a string username, every Profile that
`GetLinktreeUserInfo` returns has the tier "Unknown" when `account.tier` is
absent, not a string or the empty string, and has `account.tier` itself when
that is a non-empty string; the call returns whenever the links array holds
only mappings. -/
theorem C10_tier_default (env : Env) (url username : String) (data : Obj)
    (tr : List Event) (account : Obj) (name : String)
    (hne : ¬(url = "" ∧ username = ""))
    (hx : getUserInfoJSON env "" url username = (.ok data, tr))
    (hacct : asMap (index data "account") = some account)
    (hname : asString (index account "username") = some name) :
    (∀ r, (GetLinktreeUserInfo env url username).1 = .ret r →
      ∃ u, r.user = some u
        ∧ (index account "tier" = none → u.Tier = "Unknown")
        ∧ (asString (index account "tier") = none → u.Tier = "Unknown")
        ∧ (index account "tier" = some (.str "") → u.Tier = "Unknown")
        ∧ (∀ s, index account "tier" = some (.str s) → s ≠ "" → u.Tier = s))
    ∧ (linksAreMappings data = true → ∃ r, (GetLinktreeUserInfo env url username).1 = .ret r) := by
  refine ⟨?_, GetLinktreeUserInfo_returns env url username data tr account name hne hx hacct hname⟩
  intro r hr
  obtain ⟨links, rfl⟩ :=
    GetLinktreeUserInfo_ret env url username data tr account name hne hx hacct hname r hr
  refine ⟨_, rfl, ?_, ?_, ?_, ?_⟩
  · intro h; simp [makeUser, accountTier, h, asString]
  · intro h; simp [makeUser, accountTier, h]
  · intro h; simp [makeUser, accountTier, h, asString]
  · intro s h hs; simp [makeUser, accountTier, h, asString, hs]

/-- Witness for C10: the tier "PRO" is kept, and an empty tier becomes
"Unknown". -/
theorem C10_tier_default_witness :
    (returnedUser (GetLinktreeUserInfo (stubEnv (tierTree (.str "PRO")) (.ok none)) ""
        "alice").1).map (·.Tier) = some "PRO"
    ∧ (returnedUser (GetLinktreeUserInfo (stubEnv (tierTree (.str "")) (.ok none)) ""
        "alice").1).map (·.Tier) = some "Unknown" := by
  have key : ∀ (v : JSON) (t : String),
      (∀ u : LinktreeUser,
        ((some v = none → u.Tier = "Unknown")
        ∧ (asString (some v) = none → u.Tier = "Unknown")
        ∧ (some v = some (.str "") → u.Tier = "Unknown")
        ∧ (∀ s, some v = some (.str s) → s ≠ "" → u.Tier = s)) → u.Tier = t) →
      (returnedUser (GetLinktreeUserInfo (stubEnv (tierTree v) (.ok none)) ""
        "alice").1).map (·.Tier) = some t := by
    intro v t hk
    have h := C10_tier_default (stubEnv (tierTree v) (.ok none)) "" "alice" (tierTree v)
      [.fetch (pageRequest "https://linktr.ee/alice")]
      [("id", .num (f64 1)), ("username", .str "alice"), ("tier", v)] "alice"
      (by decide) rfl rfl rfl
    obtain ⟨r, hr⟩ := h.2 rfl
    obtain ⟨u, hu, h3⟩ := h.1 r hr
    rw [hr]
    simp only [returnedUser, hu, Option.map_some']
    exact congrArg some (hk u h3)
  refine ⟨key _ "PRO" ?_, key _ "Unknown" ?_⟩
  · intro u h; exact h.2.2.2 "PRO" rfl (by decide)
  · intro u h; exact h.2.2.1 rfl

/-- C11: when the account is a mapping with a string username and
`getUserLinks` returns an error, `GetLinktreeUserInfo` returns no error and a
Profile with an empty `Links` whose other fields are the values normalized
from the account, the same as they would be with any list of links. -/
theorem C11_link_failure_keeps_profile (env : Env) (url username : String) (data : Obj)
    (tr : List Event) (account : Obj) (name : String) (e : Error)
    (hne : ¬(url = "" ∧ username = ""))
    (hx : getUserInfoJSON env "" url username = (.ok data, tr))
    (hacct : asMap (index data "account") = some account)
    (hname : asString (index account "username") = some name)
    (hl : (getUserLinks env "" (some data)).1 = .ret (.error e)) :
    ∃ u, (GetLinktreeUserInfo env url username).1
        = .ret { user := some u, raw := some data, err := none }
      ∧ u.Links = []
      ∧ u.Username = name
      ∧ u.URL = (if url = "" then profileURL name else url)
      ∧ u.AvatarImage = (asString (index account "profilePictureUrl")).getD ""
      ∧ u.ID = accountID (index account "id")
      ∧ u.Tier = accountTier (index account "tier")
      ∧ u.IsActive = (asBool (index account "isActive")).getD false
      ∧ u.Description = (asString (index account "description")).getD ""
      ∧ u.CreatedAt = accountTime (index account "createdAt")
      ∧ u.UpdatedAt = accountTime (index account "updatedAt")
      ∧ (∀ links, u = { makeUser account url name links with Links := [] })
      ∧ (GetLinktreeUserInfo env url username).2
          = tr ++ ((getUserLinks env "" (some data)).2 ++ [.printf e]) := by
  rw [getUserLinks_data] at hl
  have hres : resolveLinks env data = (.ret (.error e), (resolveLinks env data).2) := by
    rw [← hl]
  have hg := GetLinktreeUserInfo_extracted env url username data tr hne hx
  rw [normalize_error env url data account name e _ hacct hname hres] at hg
  refine ⟨makeUser account url name [], ?_, rfl, rfl, rfl, rfl, rfl, rfl, rfl, rfl, rfl, rfl,
    fun _ => rfl, ?_⟩
  · rw [hg]
  · rw [hg, getUserLinks_data]

/-- Witness for C11: the end-to-end scenario with the unlock endpoint
unreachable keeps the account fields and has no links. -/
theorem C11_link_failure_keeps_profile_witness :
    returnedUser (GetLinktreeUserInfo downEnv "" "alice").1
      = some { Username := "alice", URL := "https://linktr.ee/alice", AvatarImage := "",
               ID := 1, Tier := "Unknown", IsActive := true, Description := "",
               CreatedAt := 0, UpdatedAt := 0, Links := [] }
    ∧ returnedError (GetLinktreeUserInfo downEnv "" "alice").1 = none := by
  obtain ⟨u, h, h1, h2, h3, h4, h5, h6, h7, h8, h9, h10, _, _⟩ :=
    C11_link_failure_keeps_profile downEnv "" "alice" aliceTree
      [.fetch (pageRequest "https://linktr.ee/alice")] aliceAccount "alice"
      (.transport "connection refused") (by decide) rfl rfl rfl rfl
  rw [h]
  refine ⟨?_, rfl⟩
  simp only [returnedUser, Option.some.injEq]
  cases u
  simp only [LinktreeUser.mk.injEq]
  simp only at h1 h2 h3 h4 h5 h6 h7 h8 h9 h10
  refine ⟨h2, ?_, ?_, ?_, ?_, ?_, ?_, ?_, ?_, h1⟩
  · rw [h3]; decide
  · rw [h4]; decide
  · rw [h5]; decide
  · rw [h6]; decide
  · rw [h7]; decide
  · rw [h8]; decide
  · rw [h9]; decide
  · rw [h10]; decide

/-- C12: with an account mapping, a string username and a links value that is
absent or holds only mappings, `GetLinktreeUserInfo` returns no error, whatever
the other account fields are, and each optional field of the Profile is the
payload value when that has the expected type (a float64 converted by
`int(v)`, a numeric string id by `strconv.Atoi`) and the default otherwise:
the empty string, `false` or `0`. -/
theorem C12_optional_fields_default (env : Env) (url username : String) (data : Obj)
    (tr : List Event) (account : Obj) (name : String)
    (hne : ¬(url = "" ∧ username = ""))
    (hx : getUserInfoJSON env "" url username = (.ok data, tr))
    (hacct : asMap (index data "account") = some account)
    (hname : asString (index account "username") = some name)
    (hlinks : linksAreMappings data = true) :
    ∃ u, (GetLinktreeUserInfo env url username).1
        = .ret { user := some u, raw := some data, err := none }
      ∧ ((∀ s, index account "profilePictureUrl" = some (.str s) → u.AvatarImage = s)
        ∧ (asString (index account "profilePictureUrl") = none → u.AvatarImage = ""))
      ∧ ((∀ s, index account "description" = some (.str s) → u.Description = s)
        ∧ (asString (index account "description") = none → u.Description = ""))
      ∧ ((∀ b, index account "isActive" = some (.bool b) → u.IsActive = b)
        ∧ (asBool (index account "isActive") = none → u.IsActive = false))
      ∧ ((∀ v, index account "createdAt" = some (.num v) → u.CreatedAt = v.toInt)
        ∧ (∀ n : Int, n.natAbs ≤ 2 ^ 53 →
            index account "createdAt" = some (.num (F64.ofInt n)) → u.CreatedAt = n)
        ∧ (asFloat64 (index account "createdAt") = none → u.CreatedAt = 0))
      ∧ ((∀ v, index account "updatedAt" = some (.num v) → u.UpdatedAt = v.toInt)
        ∧ (∀ n : Int, n.natAbs ≤ 2 ^ 53 →
            index account "updatedAt" = some (.num (F64.ofInt n)) → u.UpdatedAt = n)
        ∧ (asFloat64 (index account "updatedAt") = none → u.UpdatedAt = 0))
      ∧ ((∀ v, index account "id" = some (.num v) → u.ID = v.toInt)
        ∧ (∀ s n, index account "id" = some (.str s) → Atoi s = .ok n → u.ID = n)
        ∧ (∀ s e, index account "id" = some (.str s) → Atoi s = .error e → u.ID = 0)
        ∧ (asFloat64 (index account "id") = none → asString (index account "id") = none →
            u.ID = 0)) := by
  obtain ⟨r, hr⟩ :=
    GetLinktreeUserInfo_returns env url username data tr account name hne hx hacct hname hlinks
  obtain ⟨links, rfl⟩ :=
    GetLinktreeUserInfo_ret env url username data tr account name hne hx hacct hname r hr
  refine ⟨_, hr, ⟨?_, ?_⟩, ⟨?_, ?_⟩, ⟨?_, ?_⟩, ⟨?_, ?_, ?_⟩, ⟨?_, ?_, ?_⟩, ⟨?_, ?_, ?_, ?_⟩⟩
  · intro s h; simp [makeUser, h, asString]
  · intro h; simp [makeUser, h]
  · intro s h; simp [makeUser, h, asString]
  · intro h; simp [makeUser, h]
  · intro b h; simp [makeUser, h, asBool]
  · intro h; simp [makeUser, h]
  · intro v h; simp [makeUser, h, accountTime, asFloat64]
  · intro n hn h; simp only [makeUser, h]; exact accountTime_ofInt n hn
  · intro h; simp only [makeUser]; exact accountTime_other _ h
  · intro v h; simp [makeUser, h, accountTime, asFloat64]
  · intro n hn h; simp only [makeUser, h]; exact accountTime_ofInt n hn
  · intro h; simp only [makeUser]; exact accountTime_other _ h
  · intro v h; simp [makeUser, h, accountID]
  · intro s n h ha; simp [makeUser, h, accountID, ha]
  · intro s e h ha; simp [makeUser, h, accountID, ha]
  · intro h1 h2; exact accountID_other _ h1 h2

/-- Witness for C12: an account in which every optional field has an
unexpected type, and no links value, gives a Profile of defaults without error. -/
theorem C12_optional_fields_default_witness :
    returnedError (GetLinktreeUserInfo (stubEnv oddTree (.ok none)) "" "alice").1 = none
    ∧ (returnedUser (GetLinktreeUserInfo (stubEnv oddTree (.ok none)) "" "alice").1).map
        (fun u => (u.AvatarImage, u.Description, u.IsActive, u.CreatedAt, u.UpdatedAt, u.ID))
      = some ("", "", false, 0, 0, 0) := by
  obtain ⟨u, h, h1, h2, h3, h4, h5, h6⟩ :=
    C12_optional_fields_default (stubEnv oddTree (.ok none)) "" "alice" oddTree
      [.fetch (pageRequest "https://linktr.ee/alice")] oddAccount "alice"
      (by decide) rfl rfl rfl rfl
  rw [h]
  simp only [returnedError, returnedUser, Option.map_some', h1.2 rfl, h2.2 rfl, h3.2 rfl,
    h4.2.2 rfl, h5.2.2 rfl, h6.2.2.2 rfl rfl, and_self]

/-- C13: when the unlock call returns a body that decodes to a JSON object,
`uncensorLinks` returns no error and, in response order, the url of every
element of the `links` array that is a mapping with a string url; the other
elements are skipped, and a `links` value that is absent or not an array
gives the empty list. -/
theorem C13_unlock_response_links (env : Env) (accountID : Int) (linkIDs : List Int)
    (body : String) (resp : Obj)
    (hf : env.fetch (gateRequest accountID linkIDs) = .ok body)
    (hd : env.decode body = some (.obj resp)) :
    (uncensorLinks env accountID linkIDs).1 = .ok (responseLinks resp)
    ∧ (asSlice (index resp "links") = none → responseLinks resp = [])
    ∧ (∀ xs, asSlice (index resp "links") = some xs →
        responseLinks resp = xs.filterMap (fun l => (entryURL l).map Link.mk)
        ∧ ∀ k, k ∈ responseLinks resp ↔ ∃ l ∈ xs, entryURL l = some k.URL) := by
  have hu : unmarshalMap env body = .ok resp := by simp only [unmarshalMap, hd]
  refine ⟨by rw [uncensorLinks_ok env _ _ body resp hf hu], ?_, ?_⟩
  · intro h; simp only [responseLinks, h]
  · intro xs h
    refine ⟨by simp only [responseLinks, h], ?_⟩
    intro k
    simp only [responseLinks, h, List.mem_filterMap, Option.map_eq_some']
    constructor
    · rintro ⟨l, hl, u, hu1, hu2⟩
      exact ⟨l, hl, by rw [hu1, ← hu2]⟩
    · rintro ⟨l, hl, hu1⟩
      exact ⟨l, hl, k.URL, hu1, rfl⟩

/-- Witness for C13: the response of the end-to-end scenario gives its one
link. -/
theorem C13_unlock_response_links_witness :
    (uncensorLinks aliceEnv 1 [11]).1 = .ok (responseLinks aliceGate)
    ∧ responseLinks aliceGate = [{ URL := "https://hidden.example" }] :=
  ⟨(C13_unlock_response_links aliceEnv 1 [11] "gate" aliceGate rfl rfl).1, by decide⟩

/-- C14: with both the url and the username empty, `GetLinktreeUserInfo`
returns the input error with no Profile and no raw tree, and fetches nothing;
when one of the two is not empty, the error it returns, if any, is not the
input error. -/
theorem C14_input_error (env : Env) :
    GetLinktreeUserInfo env "" "" =
      (.ret { user := none, raw := none,
              err := some (.errorf "Please pass linktree username or url") }, [])
    ∧ ∀ url username, (url ≠ "" ∨ username ≠ "") →
        returnedError (GetLinktreeUserInfo env url username).1
          ≠ some (.errorf "Please pass linktree username or url") := by
  refine ⟨by simp [GetLinktreeUserInfo], ?_⟩
  intro url username h
  have hne : ¬(url = "" ∧ username = "") := by
    rintro ⟨h1, h2⟩
    rcases h with h | h
    · exact h h1
    · exact h h2
  rw [GetLinktreeUserInfo, if_neg hne]
  rcases hj : getUserInfoJSON env "" url username with ⟨r, tr⟩
  cases r with
  | error e =>
    simp only [returnedError, ne_eq, Option.some.injEq]
    exact getUserInfoJSON_error_ne env url username e tr hne hj
  | ok data => exact normalize_error_ne env url data

/-- Witness for C14: a call with a username only does not return the input
error. -/
theorem C14_input_error_witness :
    returnedError (GetLinktreeUserInfo aliceEnv "" "alice").1
      ≠ some (.errorf "Please pass linktree username or url") :=
  (C14_input_error aliceEnv).2 "" "alice" (Or.inr (by decide))

/-- C15: in every call of `GetLinktreeUserInfo` that returns without error,
exactly one page is fetched, first of all, by a GET without headers or body:
the caller's url when it is not empty, otherwise "https://linktr.ee/" followed
by the caller's username; the raw tree returned is the one extracted from the
body of that response; and `Profile.URL` is the caller's url when it is not
empty, otherwise "https://linktr.ee/" followed by `Profile.Username`. -/
theorem C15_profile_url (env : Env) (url username : String) (r : Ret) (tr : List Event)
    (h : GetLinktreeUserInfo env url username = (.ret r, tr))
    (hok : r.err = none) :
    ∃ u tr' page data, r.user = some u
      ∧ tr = .fetch { url := if url = "" then "https://linktr.ee/" ++ username else url,
                      method := "GET", headers := [], body := none } :: tr'
      ∧ (∀ q, Event.fetch q ∈ tr' → q.method = "POST")
      ∧ env.fetch { url := if url = "" then "https://linktr.ee/" ++ username else url,
                    method := "GET", headers := [], body := none } = .ok page
      ∧ extractPageProps env page = .ok data
      ∧ r.raw = some data
      ∧ (url = "" → u.URL = "https://linktr.ee/" ++ u.Username)
      ∧ (url ≠ "" → u.URL = url) := by
  have hne : ¬(url = "" ∧ username = "") := by
    intro hb
    rw [GetLinktreeUserInfo, if_pos hb] at h
    simp only [Prod.mk.injEq, Outcome.ret.injEq] at h
    rw [← h.1] at hok
    simp at hok
  have hj := getUserInfoJSON_fetch env url username hne
  rw [requestedURL_eq url username hne] at hj
  rw [GetLinktreeUserInfo, if_neg hne, hj] at h
  cases hf : env.fetch (pageRequest (if url = "" then profileURL username else url)) with
  | error m =>
    rw [hf] at h
    simp only [Prod.mk.injEq, Outcome.ret.injEq] at h
    rw [← h.1] at hok
    simp at hok
  | ok body =>
    rw [hf] at h
    simp only at h
    cases he : extractPageProps env body with
    | error e =>
      rw [he] at h
      simp only [Prod.mk.injEq, Outcome.ret.injEq] at h
      rw [← h.1] at hok
      simp at hok
    | ok data =>
      rw [he] at h
      simp only [Prod.mk.injEq] at h
      obtain ⟨h1, h2⟩ := h
      simp only [normalize] at h1 h2
      cases hacct : asMap (index data "account") with
      | none =>
        rw [hacct] at h1
        simp only [Outcome.ret.injEq] at h1
        rw [← h1] at hok
        simp at hok
      | some account =>
        rw [hacct] at h1 h2
        simp only at h1 h2
        cases hname : asString (index account "username") with
        | none =>
          rw [hname] at h1
          simp only [Outcome.ret.injEq] at h1
          rw [← h1] at hok
          simp at hok
        | some name =>
          rw [hname] at h1 h2
          simp only [getUserLinks_data] at h1 h2
          have hp := resolveLinks_trace_post env data
          rcases hres : resolveLinks env data with ⟨o, trl⟩
          rw [hres] at h1 h2 hp
          simp only at hp
          cases o with
          | panic => simp at h1
          | ret x =>
            cases x with
            | error e =>
              simp only [Outcome.ret.injEq] at h1
              simp only [List.singleton_append] at h2
              refine ⟨_, trl ++ [Event.printf e], body, data, by rw [← h1], h2.symm, ?_, hf, he,
                by rw [← h1], ?_, ?_⟩
              · intro q hq
                simp only [List.mem_append, List.mem_singleton] at hq
                rcases hq with hq | hq
                · exact hp q hq
                · cases hq
              · intro hu; simp [makeUser, hu, profileURL]
              · intro hu; simp [makeUser, hu]
            | ok ls =>
              simp only [Outcome.ret.injEq] at h1
              simp only [List.singleton_append] at h2
              refine ⟨_, trl, body, data, by rw [← h1], h2.symm, hp, hf, he, by rw [← h1],
                ?_, ?_⟩
              · intro hu; simp [makeUser, hu, profileURL]
              · intro hu; simp [makeUser, hu]

/-- Witness for C15: the end-to-end scenario called with a username only
fetches the page of that username and derives the url from the payload. -/
theorem C15_profile_url_witness :
    (GetLinktreeUserInfo aliceEnv "" "alice").2.head?
        = some (.fetch { url := "https://linktr.ee/alice", method := "GET", headers := [],
                         body := none })
    ∧ (returnedUser (GetLinktreeUserInfo aliceEnv "" "alice").1).map (·.URL)
        = (returnedUser (GetLinktreeUserInfo aliceEnv "" "alice").1).map
            (fun u => "https://linktr.ee/" ++ u.Username) := by
  have hev : GetLinktreeUserInfo aliceEnv "" "alice" = (.ret
      { user := some (makeUser aliceAccount "" "alice"
          [{ URL := "https://a.example" }, { URL := "https://hidden.example" }]),
        raw := some aliceTree, err := none },
      [.fetch (pageRequest "https://linktr.ee/alice"), .fetch (gateRequest 1 [11])]) := rfl
  obtain ⟨u, tr', page, data, h1, h2, _, _, _, _, h4, _⟩ :=
    C15_profile_url aliceEnv "" "alice" _ _ hev rfl
  rw [hev]
  have hu := h4 rfl
  rw [← Option.some.inj h1] at hu
  refine ⟨rfl, ?_⟩
  simp only [returnedUser, Option.map_some']
  exact congrArg some hu

/-- C16: on the page text that `getUserInfoJSON` parses (the given source, or
the body fetched when no source is given), it returns an error, always the
same one, exactly when no `__NEXT_DATA__` script has a text that is valid JSON
with a mapping at `props.pageProps`; otherwise it returns, without error, the
`props.pageProps` mapping of the last script that has one. -/
theorem C16_extraction_fails_iff_no_payload (env : Env) (source url username page : String)
    (hp : ((source ≠ "" ∨ requestedURL url username = "") ∧ page = source)
      ∨ (source = "" ∧ requestedURL url username ≠ ""
          ∧ env.fetch (pageRequest (requestedURL url username)) = .ok page)) :
    ((getUserInfoJSON env source url username).1
        = .error (.errorf "failed to extract user data from HTML")
      ↔ ∀ t ∈ env.scripts page, pagePropsOf env t = none)
    ∧ (∀ e, (getUserInfoJSON env source url username).1 = .error e →
        e = .errorf "failed to extract user data from HTML")
    ∧ (∀ pre s post pp, env.scripts page = pre ++ s :: post → pagePropsOf env s = some pp →
        (∀ t ∈ post, pagePropsOf env t = none) →
        (getUserInfoJSON env source url username).1 = .ok pp) := by
  rw [getUserInfoJSON_page env source url username page hp]
  exact ⟨(extractPageProps_error_iff env page).1, (extractPageProps_error_iff env page).2,
    fun pre s post pp h1 h2 h3 => extractPageProps_last env page pre post s pp h1 h2 h3⟩

/-- Witness for C16: the page of the end-to-end scenario has one script with a
payload, which is returned. -/
theorem C16_extraction_fails_iff_no_payload_witness :
    pagePropsOf aliceEnv "next-data" = some aliceTree
    ∧ (getUserInfoJSON aliceEnv "" "" "alice").1 = .ok aliceTree :=
  ⟨rfl, (C16_extraction_fails_iff_no_payload aliceEnv "" "" "alice" "page"
    (Or.inr ⟨rfl, by decide, rfl⟩)).2.2 [] "next-data" [] aliceTree rfl rfl
    (fun _ h => absurd h (List.not_mem_nil _))⟩

/-- C17: once `pageProps` was extracted, every result that `GetLinktreeUserInfo`
returns carries that same tree as raw result: with the account error, with the
username error, and with a Profile. -/
theorem C17_raw_tree_returned (env : Env) (url username : String) (data : Obj)
    (tr : List Event)
    (hne : ¬(url = "" ∧ username = ""))
    (hx : getUserInfoJSON env "" url username = (.ok data, tr)) :
    (∀ r, (GetLinktreeUserInfo env url username).1 = .ret r → r.raw = some data)
    ∧ (asMap (index data "account") = none →
        (GetLinktreeUserInfo env url username).1
          = .ret { user := none, raw := some data,
                   err := some (.errorf "invalid account data structure") })
    ∧ (∀ account, asMap (index data "account") = some account →
        asString (index account "username") = none →
        (GetLinktreeUserInfo env url username).1
          = .ret { user := none, raw := some data,
                   err := some (.errorf "invalid username") })
    ∧ (∀ account name, asMap (index data "account") = some account →
        asString (index account "username") = some name → linksAreMappings data = true →
        ∃ u, (GetLinktreeUserInfo env url username).1
          = .ret { user := some u, raw := some data, err := none }) := by
  have hg := GetLinktreeUserInfo_extracted env url username data tr hne hx
  refine ⟨?_, ?_, ?_, ?_⟩
  · intro r hr
    rw [hg] at hr
    exact normalize_raw env url data r hr
  · intro h
    rw [hg]
    simp only [normalize, h]
  · intro account h1 h2
    rw [hg]
    simp only [normalize, h1, h2]
  · intro account name h1 h2 h3
    obtain ⟨r, hr⟩ :=
      GetLinktreeUserInfo_returns env url username data tr account name hne hx h1 h2 h3
    obtain ⟨links, rfl⟩ :=
      GetLinktreeUserInfo_ret env url username data tr account name hne hx h1 h2 r hr
    exact ⟨_, hr⟩

/-- Witness for C17: a tree without account comes back with the account
error. -/
theorem C17_raw_tree_returned_witness :
    (GetLinktreeUserInfo (stubEnv noAccountTree (.ok none)) "" "alice").1
      = .ret { user := none, raw := some noAccountTree,
               err := some (.errorf "invalid account data structure") } :=
  (C17_raw_tree_returned (stubEnv noAccountTree (.ok none)) "" "alice" noAccountTree
    [.fetch (pageRequest "https://linktr.ee/alice")] (by decide) rfl).2.1 rfl

/-- C18 (amended): when every `COMMERCE_PAY` entry has an id that is a JSON
number or a numeric string, `getUserLinks` gives the same result and the same
requests on a links array as on the array with all `COMMERCE_PAY` entries
removed. -/
theorem C18_commerce_pay_removal (env : Env) (data data' : Obj) (links : List JSON)
    (hacct : index data' "account" = index data "account")
    (hl : asSlice (index data "links") = some links)
    (hl' : asSlice (index data' "links") = some (links.filter fun l => !isCommercePay l))
    (hid : ∀ l ∈ links, isCommercePay l = true → (entryID l).isSome = true) :
    getUserLinks env "" (some data) = getUserLinks env "" (some data') := by
  rw [getUserLinks_data, getUserLinks_data]
  simp only [resolveLinks, hacct, hl, hl', linkLoop_filter links hid [] []]

/-- Witness for C18: the end-to-end scenario with a `COMMERCE_PAY` entry that
has a numeric id gives the same result as without it. -/
theorem C18_commerce_pay_removal_witness :
    getUserLinks aliceEnv "" (some payTree) = getUserLinks aliceEnv "" (some aliceTree) :=
  C18_commerce_pay_removal aliceEnv payTree aliceTree payLinks rfl rfl rfl (by decide)

/-- Counterexample to C18 as stated: a `COMMERCE_PAY` entry without id makes
`getUserLinks` return an id error, while on the array without it the call
succeeds. -/
theorem C18_counterexample_pay_entry_without_id :
    (∀ l ∈ payNoIdLinks, isCommercePay l = true ∧ (asMap (some l)).isSome = true)
    ∧ (payNoIdLinks.filter fun l => !isCommercePay l) = []
    ∧ getUserLinks aliceEnv "" (some payNoIdTree)
        = (.ret (.error (.unexpectedIdType "<nil>")), [])
    ∧ getUserLinks aliceEnv "" (some emptyLinksTree)
        = (.ret (.ok [{ URL := "https://hidden.example" }]), [.fetch (gateRequest 1 [])]) :=
  ⟨by decide, rfl, rfl, rfl⟩

/-- C19: with a numeric account id and well-formed entries, `getUserLinks`
sends exactly one request, to the unlock endpoint, whose
`acceptedSensitiveContent` is, in original order, the id of every entry that
has no string url, has `locked == true` and is not `COMMERCE_PAY`, and of no
other entry; the id of an entry is `int(v)` for a JSON number `v` and the
`strconv.Atoi` value for a numeric string. -/
theorem C19_censored_ids_sent (env : Env) (data account : Obj) (idf : F64)
    (links : List JSON)
    (hacct : asMap (index data "account") = some account)
    (hid : asFloat64 (index account "id") = some idf)
    (hlinks : asSlice (index data "links") = some links)
    (hwf : ∀ l ∈ links, wellFormed l) :
    (getUserLinks env "" (some data)).2 = [.fetch (gateRequest idf.toInt (censoredIDs links))]
    ∧ (gateRequest idf.toInt (censoredIDs links)).body
        = some { accountId := idf.toInt, acceptedSensitiveContent := censoredIDs links }
    ∧ censoredIDs links =
        (links.filter fun l => (entryURL l).isNone && isLocked l && !isCommercePay l).filterMap
          entryID
    ∧ (∀ l v, entryField l "id" = some (.num v) → entryID l = some v.toInt)
    ∧ (∀ l s n, entryField l "id" = some (.str s) → Atoi s = .ok n → entryID l = some n)
    ∧ (∀ l (n : Int), n.natAbs ≤ 2 ^ 53 → entryField l "id" = some (.num (F64.ofInt n)) →
        entryID l = some n)
    ∧ (∀ l (n : Int), minInt ≤ n → n ≤ maxInt → entryField l "id" = some (.str (decimal n)) →
        entryID l = some n) := by
  refine ⟨?_, rfl, censoredIDs_eq links, ?_, ?_, ?_, ?_⟩
  · rw [getUserLinks_data,
      resolveLinks_wellFormed env data account idf links hacct hid hlinks hwf]
    have ht := uncensorLinks_trace env idf.toInt (censoredIDs links)
    rcases hu : uncensorLinks env idf.toInt (censoredIDs links) with ⟨r, tr⟩
    rw [hu] at ht
    cases r <;> exact ht
  · intro l v h; simp [entryID, h, linkID]
  · intro l s n h ha; simp [entryID, h, linkID, ha]
  · intro l n hn h; simp only [entryID, h, linkID, toInt_ofInt n hn]
  · intro l n h1 h2 h; simp only [entryID, h, linkID, Atoi_decimal n h1 h2]

/-- Witness for C19: in the ordering scenario the ids 2 and 4 of the two gated
entries are sent, the second one given as a string. -/
theorem C19_censored_ids_sent_witness :
    (getUserLinks orderEnv "" (some orderTree)).2
        = [.fetch (gateRequest (f64 1).toInt (censoredIDs orderLinks))]
    ∧ censoredIDs orderLinks = [2, 4] :=
  ⟨(C19_censored_ids_sent orderEnv orderTree aliceAccount (f64 1) orderLinks rfl rfl rfl
    (by decide)).1, by decide⟩

/-- C20 (amended): whenever the strict `GetLinktreeUserInfo` of
`src/internal/linktree` returns a Profile without error (so without a failed
type assertion), and `json.Unmarshal` reported no error for the text of the
last `__NEXT_DATA__` script of the page fetched, the url and username are not
both empty and the permissive `GetLinktreeUserInfo` returns, after the same
requests, no error and the same Profile, equal in every field and in its
`Links`. -/
theorem C20_permissive_refines_strict (env : Env) (salvage : String → Obj)
    (url username : String) (u : LinktreeUser) (tr : List Event)
    (hdec : ∀ page s,
      env.fetch { url := if url = "" then "https://linktr.ee/" ++ username else url,
                  method := "GET", headers := [], body := none } = .ok page →
      (env.scripts page).getLast? = some s → ∃ d, unmarshalMap env s = .ok d)
    (h : Strict.GetLinktreeUserInfo env salvage url username = (.ret (.ok u), tr)) :
    ¬(url = "" ∧ username = "")
    ∧ ∃ raw, GetLinktreeUserInfo env url username
        = (.ret { user := some u, raw := some raw, err := none }, tr) := by
  have hne : ¬(url = "" ∧ username = "") := by
    intro hb
    simp [Strict.GetLinktreeUserInfo, hb] at h
  refine ⟨hne, ?_⟩
  rw [Strict.GetLinktreeUserInfo, if_neg hne] at h
  rcases hj : Strict.getUserInfoJSON env salvage "" url username with ⟨o, tr0⟩
  rw [hj] at h
  cases o with
  | panic => simp at h
  | ret x =>
    cases x with
    | error e => simp at h
    | ok jsonInfo =>
      simp only [Prod.mk.injEq] at h
      obtain ⟨h1, h2⟩ := h
      rcases hn : Strict.normalize env salvage url jsonInfo with ⟨outcome, trn⟩
      rw [hn] at h1 h2
      simp only at h1 h2
      rw [h1] at hn
      obtain ⟨d, rfl, hp⟩ := strict_normalize env salvage url jsonInfo u trn hn
      have hx := strict_getUserInfoJSON env salvage url username d tr0 hne hdec hj
      refine ⟨d, ?_⟩
      rw [GetLinktreeUserInfo_extracted env url username d tr0 hne hx, hp, h2]

/-- Witness for C20: on a tree with every field of the asserted type, decoded
without error, both variants return the same Profile. -/
theorem C20_permissive_refines_strict_witness :
    Strict.GetLinktreeUserInfo fullEnv (fun _ => []) "" "alice"
        = (.ret (.ok fullUser),
           [.fetch (pageRequest "https://linktr.ee/alice"), .fetch (gateRequest 1 [11])])
    ∧ returnedUser (GetLinktreeUserInfo fullEnv "" "alice").1 = some fullUser
    ∧ returnedError (GetLinktreeUserInfo fullEnv "" "alice").1 = none := by
  have hs : Strict.GetLinktreeUserInfo fullEnv (fun _ => []) "" "alice"
      = (.ret (.ok fullUser),
         [.fetch (pageRequest "https://linktr.ee/alice"), .fetch (gateRequest 1 [11])]) := rfl
  have hdec : ∀ page s,
      fullEnv.fetch { url := if ("" : String) = "" then "https://linktr.ee/" ++ "alice" else "",
                      method := "GET", headers := [], body := none } = .ok page →
      (fullEnv.scripts page).getLast? = some s → ∃ d, unmarshalMap fullEnv s = .ok d := by
    intro page s _ hl
    have hs' : s = "next-data" := by
      simp only [fullEnv, stubEnv, List.getLast?_singleton, Option.some.injEq] at hl
      exact hl.symm
    rw [hs']
    exact ⟨_, rfl⟩
  obtain ⟨_, raw, hp⟩ :=
    C20_permissive_refines_strict fullEnv (fun _ => []) "" "alice" fullUser _ hdec hs
  rw [hp]
  exact ⟨hs, rfl, rfl⟩

/-- Counterexample to C20 as stated: a page whose script carries a number
literal that overflows float64 makes `json.Unmarshal` return an error after it
has filled the map; the strict variant ignores the error and returns a Profile,
the permissive variant skips the script and returns the extraction error. -/
theorem C20_counterexample_unmarshal_error_ignored :
    unmarshalMap overflowEnv "next-data" = .error .unmarshal
    ∧ Strict.GetLinktreeUserInfo overflowEnv overflowSalvage "" "alice"
        = (.ret (.ok fullUser),
           [.fetch { url := "https://linktr.ee/alice", method := "GET", headers := [],
                     body := none },
            .fetch (gateRequest 1 [11])])
    ∧ GetLinktreeUserInfo overflowEnv "" "alice"
        = (.ret { user := none, raw := none,
                  err := some (.errorf "failed to extract user data from HTML") },
           [.fetch { url := "https://linktr.ee/alice", method := "GET", headers := [],
                     body := none }]) :=
  ⟨rfl, rfl, rfl⟩

end LinkTree
